import Mathlib

/-!
Shallow embedding of the Linux release-packaging helpers of this repository:
`build/linux/dependencies-generator.js` (dependency reconciliation) and the
sysroot installer (`fetchUrl`, `getVSCodeSysroot`, `getChromiumSysroot`).
External collaborators (subprocess results, extractor outputs, manifest data,
reference dependency tables, hashes) are passed in as explicit inputs, and the
side effects the code performs (subprocess spawns, network fetches, filesystem
mutation, console output) are recorded in explicit event traces.
-/

/-- JS `String.prototype.startsWith(p)`: the code units of `p` are a prefix of
those of `s`, embedded at the character-list level. -/
def jsStartsWith (s p : String) : Bool :=
  p.data.isPrefixOf s.data

/-- JS `String.prototype.trim()`: strip whitespace from both ends, embedded
structurally at the character-list level. -/
def jsTrim (s : String) : String :=
  String.mk (((s.data.dropWhile Char.isWhitespace).reverse.dropWhile Char.isWhitespace).reverse)

/-- JS `String.prototype.trimEnd()`: strip trailing whitespace. -/
def jsTrimEnd (s : String) : String :=
  String.mk ((s.data.reverse.dropWhile Char.isWhitespace).reverse)

/-- Worker for `jsSplit`: accumulate the current piece, emitting it at each
separator. -/
def jsSplitAux (sep : Char) : List Char → List Char → List String
  | [], acc => [String.mk acc.reverse]
  | c :: cs, acc =>
    if c = sep then String.mk acc.reverse :: jsSplitAux sep cs []
    else jsSplitAux sep cs (c :: acc)

/-- JS `s.split(sep)` for a single-character separator. -/
def jsSplit (s : String) (sep : Char) : List String :=
  jsSplitAux sep s.data []

/-- The lexicographic less-or-equal on character lists: the comparison JS
`Array.prototype.sort()` applies to strings by default. -/
def charListLe : List Char → List Char → Bool
  | [], _ => true
  | _ :: _, [] => false
  | a :: as, b :: bs =>
    if a < b then true
    else if b < a then false
    else charListLe as bs

/-- The default JS string sort order, as a relation on strings. -/
def jsLeRel (a b : String) : Prop := charListLe a.data b.data = true

instance : DecidableRel jsLeRel :=
  fun a b => inferInstanceAs (Decidable (charListLe a.data b.data = true))

/-- `path.join(a, b)` for the simple relative segments used by the source. -/
def pathJoin (a b : String) : String :=
  a ++ "/" ++ b

/-- The fixed list of shared libraries the application already bundles
(`bundledDeps` in dependencies-generator.js, lines 29-35). -/
def bundledDeps : List String :=
  ["libEGL.so", "libGLESv2.so", "libvulkan.so.1", "libvk_swiftshader.so", "libffmpeg.so"]

/-- The two package types accepted by `getDependencies`. -/
inductive PackageType where
  | deb : PackageType
  | rpm : PackageType
deriving DecidableEq

/-- Modelled from the spec: `isDebianArchString` lives in `debian/types.ts`,
which is not among the provided sources; the spec describes "distinct valid
sets per package type (two non-overlapping enumerations)". The Debian
enumeration used by the build is `amd64`, `armhf`, `arm64`. -/
def isDebianArchString (arch : String) : Bool :=
  arch = "amd64" || arch = "armhf" || arch = "arm64"

/-- Modelled from the spec: `isRpmArchString` lives in `rpm/types.ts`, which is
not among the provided sources; the RPM enumeration used by the build is
`x86_64`, `armv7hl`, `aarch64`, disjoint from the Debian one. -/
def isRpmArchString (arch : String) : Bool :=
  arch = "x86_64" || arch = "armv7hl" || arch = "aarch64"

/-- Insertion-ordered `Set.add`: JS `Set` iteration preserves first-insertion
order, so a set of strings is embedded as a duplicate-free list. -/
def setAdd (l : List String) (s : String) : List String :=
  if s ∈ l then l else l ++ [s]

/-- The keep-condition of `mergePackageDeps` (line 103): the trimmed
dependency is non-empty and does not start with `#`. -/
def keepDep (trimmedDependency : String) : Bool :=
  trimmedDependency.length != 0 && !jsStartsWith trimmedDependency "#"

/-- The body of the inner loop of `mergePackageDeps` (lines 100-107): trim the
dependency and keep it when it is non-empty and not a `#` comment. -/
def addDep (acc : List String) (dep : String) : List String :=
  let trimmedDependency := jsTrim dep
  if keepDep trimmedDependency then
    setAdd acc trimmedDependency
  else
    acc

/-- `mergePackageDeps` (dependencies-generator.js lines 98-109): flatten the
per-file dependency sets into one deduplicated set. -/
def mergePackageDeps (inputDeps : List (List String)) : List String :=
  inputDeps.foldl (fun acc depSet => depSet.foldl addDep acc) []

/-- `new Set([...a, ...b])` (line 70): union of two insertion-ordered sets. -/
def setUnion (a b : List String) : List String :=
  (a ++ b).foldl setAdd []

/-- The bundled-dependency filter of `getDependencies` (lines 77-79),
parameterized by the bundled list it closes over. -/
def filterBundled (bundled deps : List String) : List String :=
  deps.filter (fun dependency => !(bundled.any (fun bundledDep => jsStartsWith dependency bundledDep)))

/-- Lines 77-79: exclude bundled dependencies and sort (JS `Array.sort()`
default lexicographic string order). -/
def computeSorted (mergedDependencies : List String) : List String :=
  List.insertionSort jsLeRel (filterBundled bundledDeps mergedDependencies)

/-- The drift diff message of lines 84-86. -/
def failMessage (referenceGeneratedDeps sortedDependencies : List String) : String :=
  "The dependencies list has changed." ++ "\nOld:\n" ++ String.intercalate "\n" referenceGeneratedDeps
    ++ "\nNew:\n" ++ String.intercalate "\n" sortedDependencies

/-- Observable actions performed by `getDependencies`: subprocess spawns,
sysroot acquisition (network and filesystem), extractor runs, console output. -/
inductive DepEvent where
  | spawnFind (dir : String)
  | consoleError (msg : String)
  | acquireChromiumSysroot
  | acquireVSCodeSysroot
  | runDebExtractor
  | runRpmExtractor
  | consoleWarn (msg : String)
deriving DecidableEq

/-- Outcomes of the external collaborators of `getDependencies`: the `find`
subprocess, `product.json`, the two sysroot provisioners, the per-package-type
dependency extractors (`calculate-deps`), and the checked-in reference tables
(`dep-lists`), none of which are under the provided sources. -/
structure DepEnv where
  findStatus : Nat
  findStdout : String
  findStderr : String
  tunnelApplicationName : String
  chromiumSysroot : Except String String
  vscodeSysroot : Except String String
  debExtract : List String → String → String → List (List String)
  rpmExtract : List String → List (List String)
  refDebByArch : String → List String
  refRpmByArch : String → List String

/-- Line 46: `path.join(buildDir, 'resources', 'app', 'node_modules.asar.unpacked')`. -/
def nativeModulesPathOf (buildDir : String) : String :=
  pathJoin (pathJoin (pathJoin buildDir "resources") "app") "node_modules.asar.unpacked"

/-- Lines 54-56: split the `find` output and add the tunnel binary. -/
def vscodeFilesOf (env : DepEnv) (buildDir : String) : List String :=
  jsSplit (jsTrimEnd env.findStdout) (Char.ofNat 10)
    ++ [pathJoin (pathJoin buildDir "bin") env.tunnelApplicationName]

/-- Lines 57-62: the main executable, chrome sandbox and crashpad handler. -/
def runtimeFilesOf (buildDir applicationName : String) : List String :=
  [pathJoin buildDir applicationName, pathJoin buildDir "chrome-sandbox",
   pathJoin buildDir "chrome_crashpad_handler"]

/-- Lines 80-82: the baseline table entry for this package type and arch. -/
def referenceOf (env : DepEnv) (packageType : PackageType) (arch : String) : List String :=
  match packageType with
  | PackageType.deb => env.refDebByArch arch
  | PackageType.rpm => env.refRpmByArch arch

/-- The per-file extractor outputs that flow into the merge, per package type
(lines 64-75). -/
def extractorOutputsOf (env : DepEnv) (packageType : PackageType)
    (buildDir applicationName arch cs vs : String) : List (List String) :=
  match packageType with
  | PackageType.deb =>
      env.debExtract (vscodeFilesOf env buildDir) arch vs
        ++ env.debExtract (runtimeFilesOf buildDir applicationName) arch cs
  | PackageType.rpm =>
      env.rpmExtract (vscodeFilesOf env buildDir ++ runtimeFilesOf buildDir applicationName)

/-- Lines 64-75: the merged dependency set, per package type (`cs`, `vs` are
the chromium and vscode sysroot paths used by the Debian extractor calls). -/
def mergedDepsOf (env : DepEnv) (packageType : PackageType)
    (buildDir applicationName arch cs vs : String) : List String :=
  match packageType with
  | PackageType.deb =>
      setUnion (mergePackageDeps (env.debExtract (vscodeFilesOf env buildDir) arch vs))
        (mergePackageDeps (env.debExtract (runtimeFilesOf buildDir applicationName) arch cs))
  | PackageType.rpm =>
      mergePackageDeps (env.rpmExtract (vscodeFilesOf env buildDir ++ runtimeFilesOf buildDir applicationName))

/-- Events accumulated up to the comparison step, per package type. -/
def baseEventsOf (packageType : PackageType) (buildDir : String) : List DepEvent :=
  match packageType with
  | PackageType.deb =>
      [DepEvent.spawnFind (nativeModulesPathOf buildDir), DepEvent.acquireChromiumSysroot,
       DepEvent.acquireVSCodeSysroot, DepEvent.runDebExtractor, DepEvent.runDebExtractor]
  | PackageType.rpm =>
      [DepEvent.spawnFind (nativeModulesPathOf buildDir), DepEvent.runRpmExtractor]

/-- Lines 83-94: compare against the baseline (`JSON.stringify` equality of two
string arrays, i.e. ordered list equality); on mismatch either throw the diff
message (strict toggle set) or warn and fall through to returning the list. -/
def driftCheck (failBuildForNewDependencies : Bool) (events : List DepEvent)
    (referenceGeneratedDeps sortedDependencies : List String) :
    List DepEvent × Except String (List String) :=
  if sortedDependencies ≠ referenceGeneratedDeps then
    if failBuildForNewDependencies then
      (events, Except.error (failMessage referenceGeneratedDeps sortedDependencies))
    else
      (events ++ [DepEvent.consoleWarn (failMessage referenceGeneratedDeps sortedDependencies)],
       Except.ok sortedDependencies)
  else
    (events, Except.ok sortedDependencies)

/-- The source's build-time strict toggle `FAIL_BUILD_FOR_NEW_DEPENDENCIES`
(line 25) is `true`; `getDependencies` below takes the toggle as an explicit
parameter so both settings can be stated. -/
def FAIL_BUILD_FOR_NEW_DEPENDENCIES : Bool := true

/-- `getDependencies` (dependencies-generator.js lines 36-95): validate the
architecture for the package type, enumerate native modules via `find`
(non-zero exit logs and returns the empty list), acquire sysroots and run the
extractors per package type, merge, filter, sort, and diff against the
baseline. Returns the event trace and either the thrown error or the result. -/
def getDependencies (failBuildForNewDependencies : Bool) (env : DepEnv)
    (packageType : PackageType) (buildDir applicationName arch : String) :
    List DepEvent × Except String (List String) :=
  if packageType = PackageType.deb ∧ isDebianArchString arch = false then
    ([], Except.error ("Invalid Debian arch string " ++ arch))
  else if packageType = PackageType.rpm ∧ isRpmArchString arch = false then
    ([], Except.error ("Invalid RPM arch string " ++ arch))
  else if env.findStatus ≠ 0 then
    ([DepEvent.spawnFind (nativeModulesPathOf buildDir), DepEvent.consoleError "Error finding files:",
      DepEvent.consoleError env.findStderr], Except.ok [])
  else
    match packageType with
    | PackageType.deb =>
      match env.chromiumSysroot with
      | Except.error e =>
          ([DepEvent.spawnFind (nativeModulesPathOf buildDir), DepEvent.acquireChromiumSysroot],
           Except.error e)
      | Except.ok chromiumSysroot =>
        match env.vscodeSysroot with
        | Except.error e =>
            ([DepEvent.spawnFind (nativeModulesPathOf buildDir), DepEvent.acquireChromiumSysroot,
              DepEvent.acquireVSCodeSysroot], Except.error e)
        | Except.ok vscodeSysroot =>
            driftCheck failBuildForNewDependencies (baseEventsOf PackageType.deb buildDir)
              (referenceOf env PackageType.deb arch)
              (computeSorted (mergedDepsOf env PackageType.deb buildDir applicationName arch
                chromiumSysroot vscodeSysroot))
    | PackageType.rpm =>
        driftCheck failBuildForNewDependencies (baseEventsOf PackageType.rpm buildDir)
          (referenceOf env PackageType.rpm arch)
          (computeSorted (mergedDepsOf env PackageType.rpm buildDir applicationName arch "" ""))

/-- Validity of an architecture token for a package type (the conjunction of
the two guards at lines 37-44). -/
def validArch (packageType : PackageType) (arch : String) : Bool :=
  match packageType with
  | PackageType.deb => isDebianArchString arch
  | PackageType.rpm => isRpmArchString arch

/-- The failure kinds an attempt of `fetchUrl` (install-sysroot.js lines
65-117) can throw: a rejected/aborted fetch, a non-2xx release-lookup status, a
missing asset, a non-2xx asset status, a SHA256 checksum mismatch, or a failing
`tar` extraction (`execSync` throws inside the same `try`). -/
inductive FetchFailure where
  | networkError (msg : String)
  | apiStatus (status : Nat)
  | assetMissing (assetName : String)
  | assetStatus (status : Nat)
  | checksumMismatch (expected actual : String)
  | tarFailure (msg : String)
deriving DecidableEq

/-- Outcome of one attempt of `fetchUrl`: either the whole body succeeds or it
throws one of the failure kinds. -/
inductive AttemptOutcome where
  | ok
  | fail (e : FetchFailure)
deriving DecidableEq

/-- `fetchUrl` (install-sysroot.js lines 65-117) over an oracle giving each
attempt's outcome: on failure, if `retries > 0`, wait `retryDelay` and recurse
with `retries - 1`, else rethrow. Returns the number of attempts performed,
the list of delays slept between attempts, and the final outcome. -/
def fetchUrl (oracle : Nat → AttemptOutcome) (attempt retries retryDelay : Nat) :
    Nat × List Nat × Except FetchFailure Unit :=
  match oracle attempt with
  | AttemptOutcome.ok => (1, [], Except.ok ())
  | AttemptOutcome.fail e =>
    match retries with
    | 0 => (1, [], Except.error e)
    | r + 1 =>
      let rest := fetchUrl oracle (attempt + 1) r retryDelay
      (rest.1 + 1, retryDelay :: rest.2.1, rest.2.2)

/-- `fetchUrl` called with its default parameters `retries = 10`,
`retryDelay = 1000`. -/
def fetchUrlDefault (oracle : Nat → AttemptOutcome) : Nat × List Nat × Except FetchFailure Unit :=
  fetchUrl oracle 0 10 1000

/-- A filesystem path, as a list of segments. -/
abbrev SysPath := List String

/-- The relevant slice of filesystem state: a map from paths to file contents,
as an association list. -/
abbrev SysFS := List (SysPath × String)

/-- `fs.readFileSync(p).toString()` when `p` exists, `none` otherwise
(also serving as `fs.existsSync`). -/
def fsGet (fs : SysFS) (p : SysPath) : Option String :=
  (fs.find? (fun e => decide (e.1 = p))).map (fun e => e.2)

/-- `fs.writeFileSync(p, c)`. -/
def fsWrite (fs : SysFS) (p : SysPath) (c : String) : SysFS :=
  (p, c) :: fs.filter (fun e => decide (e.1 ≠ p))

/-- `fs.rmSync(p)` for a single file. -/
def fsRemoveFile (fs : SysFS) (p : SysPath) : SysFS :=
  fs.filter (fun e => decide (e.1 ≠ p))

/-- `fs.rmSync(dir, { recursive: true, force: true })`: drop every file at or
below `dir`. -/
def fsRemoveTree (fs : SysFS) (dir : SysPath) : SysFS :=
  fs.filter (fun e => !(dir.isPrefixOf e.1))

/-- Side effects performed by the two sysroot provisioners: recursive
directory deletion, directory creation, the hosted-release fetch of Variant A
(network download plus in-place tar extraction), the `curl` download of
`sysroots.json`, one `https.get` tarball download attempt, a `tar`
extraction subprocess, single-file removal, and file writes. -/
inductive SysEffect where
  | rmTree (dir : SysPath)
  | makeDir (dir : SysPath)
  | fetchRelease
  | curlManifest (url : String)
  | httpGet (url : String)
  | runTar (p : SysPath)
  | removeFile (p : SysPath)
  | writeFile (p : SysPath) (c : String)
deriving DecidableEq

/-- Effects that touch the network. -/
def sysEffectIsNetwork : SysEffect → Bool
  | SysEffect.fetchRelease => true
  | SysEffect.curlManifest _ => true
  | SysEffect.httpGet _ => true
  | _ => false

/-- Errors thrown by the two sysroot provisioners. -/
inductive SysError where
  | missingChecksum (name : String)
  | fetchFailed (e : FetchFailure)
  | manifestFailed
  | downloadFailed (url : String)
  | shaMismatch (expected actual : String)
  | extractFailed (status : Nat)
deriving DecidableEq

/-- The Debian architectures handled by `getVSCodeSysroot`'s switch
(lines 122-135). -/
inductive DebianArch where
  | amd64
  | armhf
  | arm64
deriving DecidableEq

/-- The architecture token as a string (used in the cache directory name). -/
def debianArchName : DebianArch → String
  | DebianArch.amd64 => "amd64"
  | DebianArch.armhf => "armhf"
  | DebianArch.arm64 => "arm64"

/-- `expectedName` per architecture (lines 122-135). -/
def vscodeArchiveName : DebianArch → String
  | DebianArch.amd64 => "x86_64-linux-gnu.tar.gz"
  | DebianArch.armhf => "arm-rpi-linux-gnueabihf.tar.gz"
  | DebianArch.arm64 => "aarch64-linux-gnu.tar.gz"

/-- `triple` per architecture (lines 122-135). -/
def vscodeTriple : DebianArch → String
  | DebianArch.amd64 => "x86_64-linux-gnu"
  | DebianArch.armhf => "arm-rpi-linux-gnueabihf"
  | DebianArch.arm64 => "aarch64-linux-gnu"

/-- JS `line.split(/\s+/)`: split on maximal whitespace runs (a leading run
yields a leading empty string, a trailing run a trailing one). The `Bool`
records whether a whitespace run is currently being skipped. -/
def splitWSAux : List Char → Bool → List Char → List String
  | [], _, acc => [String.mk acc.reverse]
  | c :: cs, skipping, acc =>
    if skipping then
      if c.isWhitespace then splitWSAux cs true []
      else splitWSAux cs false [c]
    else
      if c.isWhitespace then String.mk acc.reverse :: splitWSAux cs true []
      else splitWSAux cs false (c :: acc)

/-- JS `s.split(/\s+/)`. -/
def splitWS (s : String) : List String :=
  splitWSAux s.data false []

/-- The loop of `getVSCodeSysrootChecksum` (lines 52-57) over the lines of the
checksum file: destructure each line as `checksum` and `name`, returning the
checksum of the line whose name matches. -/
def findChecksum : List String → String → Option String
  | [], _ => none
  | line :: rest, expectedName =>
    match splitWS line with
    | checksum :: name :: _ =>
        if name = expectedName then some checksum else findChecksum rest expectedName
    | _ => findChecksum rest expectedName

/-- `getVSCodeSysrootChecksum` (lines 50-59), over the contents of
`build/checksums/vscode-sysroot.txt` (an external input). -/
def getVSCodeSysrootChecksum (checksums expectedName : String) : Option String :=
  findChecksum (jsSplit checksums (Char.ofNat 10)) expectedName

/-- Line 141: `process.env['VSCODE_SYSROOT_DIR'] ?? path.join(tmpdir(),
`vscode-ARCH-sysroot`)`. -/
def vscodeSysrootDir (envSysrootDir : Option SysPath) (tmpdir : SysPath) (arch : DebianArch) : SysPath :=
  match envSysrootDir with
  | some d => d
  | none => tmpdir ++ ["vscode-" ++ debianArchName arch ++ "-sysroot"]

/-- The `.stamp` marker file inside a sysroot cache directory. -/
def stampFile (dir : SysPath) : SysPath :=
  dir ++ [".stamp"]

/-- Line 143: `${sysroot}/${triple}/${triple}/sysroot`. -/
def vscodeResultPath (envSysrootDir : Option SysPath) (tmpdir : SysPath) (arch : DebianArch) : SysPath :=
  vscodeSysrootDir envSysrootDir tmpdir arch ++ [vscodeTriple arch, vscodeTriple arch, "sysroot"]

/-- `getVSCodeSysroot` (install-sysroot.js lines 118-160): look up the
checksum, hit the `.stamp` marker cache if its content equals the expected
archive name, otherwise delete and recreate the cache directory, run
`fetchUrl` (download, checksum verification and extraction), and write the
marker only after it resolves. `checksums` is the checksum file's contents and
`oracle` drives the `fetchUrl` attempts. -/
def getVSCodeSysroot (checksums : String) (envSysrootDir : Option SysPath) (tmpdir : SysPath)
    (oracle : Nat → AttemptOutcome) (fs : SysFS) (arch : DebianArch) :
    SysFS × List SysEffect × Except SysError SysPath :=
  let expectedName := vscodeArchiveName arch
  match getVSCodeSysrootChecksum checksums expectedName with
  | none => (fs, [], Except.error (SysError.missingChecksum expectedName))
  | some _checksumSha256 =>
    let sysroot := vscodeSysrootDir envSysrootDir tmpdir arch
    let stamp := stampFile sysroot
    let result := vscodeResultPath envSysrootDir tmpdir arch
    if fsGet fs stamp = some expectedName then
      (fs, [], Except.ok result)
    else
      let fs1 := fsRemoveTree fs sysroot
      match (fetchUrl oracle 0 10 1000).2.2 with
      | Except.ok _ =>
          (fsWrite fs1 stamp expectedName,
           [SysEffect.rmTree sysroot, SysEffect.makeDir sysroot, SysEffect.fetchRelease,
            SysEffect.writeFile stamp expectedName],
           Except.ok result)
      | Except.error e =>
          (fs1,
           [SysEffect.rmTree sysroot, SysEffect.makeDir sysroot, SysEffect.fetchRelease],
           Except.error (SysError.fetchFailed e))

/-- One entry of the `sysroots.json` manifest. -/
structure SysrootEntry where
  tarball : String
  sha1sum : String
  sysrootDir : String

/-- Outcome of one `https.get` download attempt of the Chromium sysroot
tarball: the full streamed contents, or a transport error. -/
inductive DownloadOutcome where
  | success (contents : String)
  | failure (msg : String)

/-- `URL_PREFIX` of install-sysroot.js line 16. -/
def chromiumUrlBase : String := "https://msftelectron.blob.core.windows.net"

/-- `URL_PATH` of install-sysroot.js line 17. -/
def chromiumUrlPath : String := "sysroots/toolchain"

/-- Line 163: the manifest URL derived from the pinned Electron version. -/
def chromiumManifestUrl (electronVersion : String) : String :=
  "https://raw.githubusercontent.com/electron/electron/v" ++ electronVersion ++ "/script/sysroots.json"

/-- Line 170: `arch === 'armhf' ? 'bullseye_arm' : `bullseye_${arch}``. -/
def chromiumArchKey (arch : String) : String :=
  if arch = "armhf" then "bullseye_arm" else "bullseye_" ++ arch

/-- Line 175: `[URL_PREFIX, URL_PATH, tarballSha, tarballFilename].join('/')`. -/
def chromiumUrlOf (entry : SysrootEntry) : String :=
  String.intercalate "/" [chromiumUrlBase, chromiumUrlPath, entry.sha1sum, entry.tarball]

/-- Line 174: `path.join(tmpdir(), sysrootDict['SysrootDir'])`. -/
def chromiumSysrootDirOf (tmpdir : SysPath) (manifest : String → SysrootEntry) (arch : String) : SysPath :=
  tmpdir ++ [(manifest (chromiumArchKey arch)).sysrootDir]

/-- The download loop of lines 186-202: up to 3 attempts, stopping at the
first success; returns the number of attempts used and the contents of the
successful one, if any. -/
def downloadLoop (dlOracle : Nat → DownloadOutcome) (i : Nat) : Nat → Nat × Option String
  | 0 => (0, none)
  | n + 1 =>
    match dlOracle i with
    | DownloadOutcome.success contents => (1, some contents)
    | DownloadOutcome.failure _ =>
      let rest := downloadLoop dlOracle (i + 1) n
      (rest.1 + 1, rest.2)

/-- `getChromiumSysroot` (install-sysroot.js lines 162-218): download the
manifest via `curl` (non-zero exit is fatal), look up the architecture entry,
hit the `.stamp` marker cache if its content equals the constructed download
URL, otherwise delete and recreate the directory, stream-download the tarball
with up to 3 attempts, verify its SHA1 (`sha1` is the hash function as an
oracle on contents), extract via `tar` (`tarStatus` its exit status), remove
the tarball, write the marker and return. -/
def getChromiumSysroot (electronVersion : String) (tmpdir : SysPath) (curlStatus : Nat)
    (manifest : String → SysrootEntry) (dlOracle : Nat → DownloadOutcome)
    (sha1 : String → String) (tarStatus : Nat) (fs : SysFS) (arch : String) :
    SysFS × List SysEffect × Except SysError SysPath :=
  let sysrootJSONUrl := chromiumManifestUrl electronVersion
  if curlStatus ≠ 0 then
    (fs, [SysEffect.curlManifest sysrootJSONUrl], Except.error SysError.manifestFailed)
  else
    let sysrootDict := manifest (chromiumArchKey arch)
    let sysroot := chromiumSysrootDirOf tmpdir manifest arch
    let url := chromiumUrlOf sysrootDict
    let stamp := stampFile sysroot
    if fsGet fs stamp = some url then
      (fs, [SysEffect.curlManifest sysrootJSONUrl], Except.ok sysroot)
    else
      let fs1 := fsRemoveTree fs sysroot
      let tarballPath := sysroot ++ [sysrootDict.tarball]
      let dl := downloadLoop dlOracle 0 3
      let baseEvents := [SysEffect.curlManifest sysrootJSONUrl, SysEffect.rmTree sysroot,
        SysEffect.makeDir sysroot] ++ List.replicate dl.1 (SysEffect.httpGet url)
      match dl.2 with
      | none =>
          (fsRemoveFile (fsWrite fs1 tarballPath "") tarballPath,
           baseEvents ++ [SysEffect.removeFile tarballPath],
           Except.error (SysError.downloadFailed url))
      | some contents =>
          let fs2 := fsWrite fs1 tarballPath contents
          let sha := sha1 contents
          if sha ≠ sysrootDict.sha1sum then
            (fs2, baseEvents, Except.error (SysError.shaMismatch sysrootDict.sha1sum sha))
          else if tarStatus ≠ 0 then
            (fs2, baseEvents ++ [SysEffect.runTar tarballPath],
             Except.error (SysError.extractFailed tarStatus))
          else
            (fsWrite (fsRemoveFile fs2 tarballPath) stamp url,
             baseEvents ++ [SysEffect.runTar tarballPath, SysEffect.removeFile tarballPath,
               SysEffect.writeFile stamp url],
             Except.ok sysroot)

/-- An attempt oracle whose first ten attempts fail with a checksum mismatch
and whose eleventh succeeds. -/
def cexOracle : Nat → AttemptOutcome :=
  fun i => if i < 10 then AttemptOutcome.fail (FetchFailure.checksumMismatch "expected" "actual")
           else AttemptOutcome.ok

/-- A checksum file with one entry, for the amd64 archive. -/
def exChecksums : String := "abc x86_64-linux-gnu.tar.gz"

/-- An always-succeeding fetch oracle. -/
def exOracleOk : Nat → AttemptOutcome := fun _ => AttemptOutcome.ok

/-- An always-failing fetch oracle. -/
def exOracleFail : Nat → AttemptOutcome :=
  fun _ => AttemptOutcome.fail (FetchFailure.assetMissing "x86_64-linux-gnu.tar.gz")

/-- A filesystem whose amd64 vscode-sysroot marker matches the expected
archive name. -/
def exStampFsA : SysFS := [(["tmp", "vscode-amd64-sysroot", ".stamp"], "x86_64-linux-gnu.tar.gz")]

/-- A one-entry `sysroots.json` manifest. -/
def exManifest : String → SysrootEntry :=
  fun _ => { tarball := "sysroot.tar.xz", sha1sum := "abc123",
             sysrootDir := "debian_bullseye_amd64-sysroot" }

/-- A filesystem whose Chromium sysroot marker matches the constructed URL of
`exManifest`. -/
def exStampFsB : SysFS :=
  [(["tmp", "debian_bullseye_amd64-sysroot", ".stamp"], chromiumUrlOf (exManifest "bullseye_amd64"))]

/-- An always-failing tarball download oracle. -/
def exDlFail : Nat → DownloadOutcome := fun _ => DownloadOutcome.failure "socket hang up"

/-- An always-succeeding tarball download oracle. -/
def exDlOk : Nat → DownloadOutcome := fun _ => DownloadOutcome.success "TARBALLDATA"

/-- A hash oracle agreeing with `exManifest`'s recorded SHA1. -/
def exSha1 : String → String := fun _ => "abc123"

/-- A baseline collaborator environment for `getDependencies`: `find`
succeeds with two files, both sysroots resolve, extractors return nothing,
baselines are empty. -/
def baseEnv : DepEnv :=
  { findStatus := 0, findStdout := "f1\nf2", findStderr := "",
    tunnelApplicationName := "tunnel",
    chromiumSysroot := Except.ok "cs", vscodeSysroot := Except.ok "vs",
    debExtract := fun _ _ _ => [], rpmExtract := fun _ => [],
    refDebByArch := fun _ => [], refRpmByArch := fun _ => [] }

/-- Extractor output whose dependency set equals the baseline as a set but
not as a sequence. -/
def envPerm : DepEnv :=
  { baseEnv with rpmExtract := fun _ => [["libB"], ["libA"]],
                 refRpmByArch := fun _ => ["libB", "libA"] }

/-- Two extractor outputs sharing a duplicate entry. -/
def envMerge : DepEnv :=
  { baseEnv with rpmExtract := fun _ => [["libA"], ["libA", "libB"]],
                 refRpmByArch := fun _ => ["libA", "libB"] }

/-- The end-to-end drift scenario: the Debian extractor additionally returns
`libnew.so.1` on top of the two-element baseline. -/
def envDrift : DepEnv :=
  { baseEnv with debExtract := fun _ _ _ => [["libc.so.6", "libpthread.so.0", "libnew.so.1"]],
                 refDebByArch := fun _ => ["libc.so.6", "libpthread.so.0"] }

/-- The matching end-to-end scenario: the extractor returns exactly the
baseline set, in reversed order. -/
def envMatch : DepEnv :=
  { baseEnv with debExtract := fun _ _ _ => [["libpthread.so.0", "libc.so.6"]],
                 refDebByArch := fun _ => ["libc.so.6", "libpthread.so.0"] }

/-- A failing `find` subprocess with a non-empty baseline. -/
def envFindFail : DepEnv :=
  { baseEnv with findStatus := 1, findStderr := "find: no such directory",
                 refDebByArch := fun _ => ["libX"], refRpmByArch := fun _ => ["libX"] }

theorem mem_setAdd {l : List String} {t s : String} : s ∈ setAdd l t ↔ s ∈ l ∨ s = t := by
  simp only [setAdd]
  split
  · rename_i h
    constructor
    · exact fun hs => Or.inl hs
    · rintro (hs | rfl)
      · exact hs
      · exact h
  · simp [List.mem_append]

theorem nodup_setAdd {l : List String} (h : l.Nodup) (t : String) : (setAdd l t).Nodup := by
  simp only [setAdd]
  split
  · exact h
  · rename_i ht
    simp [List.nodup_append, h, ht]

theorem mem_foldl_setAdd {l : List String} {s : String} :
    ∀ {acc : List String}, s ∈ l.foldl setAdd acc ↔ s ∈ acc ∨ s ∈ l := by
  induction l with
  | nil => simp
  | cons a l ih =>
    intro acc
    rw [List.foldl_cons, ih, mem_setAdd]
    simp only [List.mem_cons]
    tauto

theorem nodup_foldl_setAdd {l : List String} :
    ∀ {acc : List String}, acc.Nodup → (l.foldl setAdd acc).Nodup := by
  induction l with
  | nil => intro acc h; simpa using h
  | cons a l ih => intro acc h; exact ih (nodup_setAdd h a)

theorem mem_setUnion {a b : List String} {s : String} :
    s ∈ setUnion a b ↔ s ∈ a ∨ s ∈ b := by
  rw [setUnion, mem_foldl_setAdd]
  simp [List.mem_append]

theorem nodup_setUnion (a b : List String) : (setUnion a b).Nodup :=
  nodup_foldl_setAdd List.nodup_nil

theorem mem_addDep {acc : List String} {dep s : String} :
    s ∈ addDep acc dep ↔ s ∈ acc ∨ (jsTrim dep = s ∧ keepDep s = true) := by
  simp only [addDep]
  split
  · rename_i h
    rw [mem_setAdd]
    constructor
    · rintro (hs | rfl)
      · exact Or.inl hs
      · exact Or.inr ⟨rfl, h⟩
    · rintro (hs | ⟨rfl, _⟩)
      · exact Or.inl hs
      · exact Or.inr rfl
  · rename_i h
    constructor
    · exact Or.inl
    · rintro (hs | ⟨rfl, hk⟩)
      · exact hs
      · exact absurd hk h

theorem nodup_addDep {acc : List String} (h : acc.Nodup) (dep : String) : (addDep acc dep).Nodup := by
  simp only [addDep]
  split
  · exact nodup_setAdd h _
  · exact h

theorem mem_foldl_addDep {depSet : List String} {s : String} :
    ∀ {acc : List String},
      s ∈ depSet.foldl addDep acc ↔ s ∈ acc ∨ ∃ d ∈ depSet, jsTrim d = s ∧ keepDep s = true := by
  induction depSet with
  | nil => simp
  | cons d ds ih =>
    intro acc
    rw [List.foldl_cons, ih, mem_addDep]
    simp only [List.mem_cons]
    constructor
    · rintro ((hs | hd) | ⟨d', hd', hs⟩)
      · exact Or.inl hs
      · exact Or.inr ⟨d, Or.inl rfl, hd.1, hd.2⟩
      · exact Or.inr ⟨d', Or.inr hd', hs⟩
    · rintro (hs | ⟨d', (rfl | hd'), hs⟩)
      · exact Or.inl (Or.inl hs)
      · exact Or.inl (Or.inr hs)
      · exact Or.inr ⟨d', hd', hs⟩

theorem nodup_foldl_addDep {depSet : List String} :
    ∀ {acc : List String}, acc.Nodup → (depSet.foldl addDep acc).Nodup := by
  induction depSet with
  | nil => intro acc h; simpa using h
  | cons d ds ih => intro acc h; exact ih (nodup_addDep h d)

theorem mem_mergePackageDeps {inputDeps : List (List String)} {s : String} :
    s ∈ mergePackageDeps inputDeps ↔
      ∃ ds ∈ inputDeps, ∃ d ∈ ds, jsTrim d = s ∧ keepDep s = true := by
  have main : ∀ (L : List (List String)) (acc : List String),
      s ∈ L.foldl (fun acc depSet => depSet.foldl addDep acc) acc ↔
        s ∈ acc ∨ ∃ ds ∈ L, ∃ d ∈ ds, jsTrim d = s ∧ keepDep s = true := by
    intro L
    induction L with
    | nil => simp
    | cons ds L ih =>
      intro acc
      rw [List.foldl_cons, ih, mem_foldl_addDep]
      simp only [List.mem_cons]
      constructor
      · rintro ((hs | hd) | ⟨ds', hds', hd⟩)
        · exact Or.inl hs
        · exact Or.inr ⟨ds, Or.inl rfl, hd⟩
        · exact Or.inr ⟨ds', Or.inr hds', hd⟩
      · rintro (hs | ⟨ds', (rfl | hds'), hd⟩)
        · exact Or.inl (Or.inl hs)
        · exact Or.inl (Or.inr hd)
        · exact Or.inr ⟨ds', hds', hd⟩
  rw [mergePackageDeps, main]
  simp

theorem nodup_mergePackageDeps (inputDeps : List (List String)) :
    (mergePackageDeps inputDeps).Nodup := by
  have main : ∀ (L : List (List String)) (acc : List String), acc.Nodup →
      (L.foldl (fun acc depSet => depSet.foldl addDep acc) acc).Nodup := by
    intro L
    induction L with
    | nil => intro acc h; simpa using h
    | cons ds L ih => intro acc h; exact ih _ (nodup_foldl_addDep h)
  exact main _ _ List.nodup_nil

theorem jsStartsWith_iff {s p : String} : jsStartsWith s p = true ↔ ∃ t, s = p ++ t := by
  rw [jsStartsWith, List.isPrefixOf_iff_prefix]
  constructor
  · rintro ⟨r, hr⟩
    refine ⟨String.mk r, String.ext ?_⟩
    rw [String.data_append]
    exact hr.symm
  · rintro ⟨t, rfl⟩
    exact ⟨t.data, (String.data_append _ _).symm⟩

theorem string_length_eq_zero_iff {s : String} : s.length = 0 ↔ s = "" := by
  rw [← String.length_data, List.length_eq_zero, String.ext_iff]

theorem keepDep_iff {s : String} :
    keepDep s = true ↔ s ≠ "" ∧ jsStartsWith s "#" = false := by
  rw [keepDep, Bool.and_eq_true, bne_iff_ne, Bool.not_eq_true']
  constructor
  · rintro ⟨h1, h2⟩
    exact ⟨fun he => h1 (by rw [string_length_eq_zero_iff]; exact he), h2⟩
  · rintro ⟨h1, h2⟩
    exact ⟨fun he => h1 (string_length_eq_zero_iff.1 he), h2⟩

theorem mem_filterBundled {bundled deps : List String} {d : String} :
    d ∈ filterBundled bundled deps ↔
      d ∈ deps ∧ ∀ b ∈ bundled, jsStartsWith d b = false := by
  simp [filterBundled, List.mem_filter, List.any_eq_true]

theorem mem_computeSorted {merged : List String} {d : String} :
    d ∈ computeSorted merged ↔ d ∈ merged ∧ ∀ b ∈ bundledDeps, jsStartsWith d b = false := by
  rw [computeSorted, (List.perm_insertionSort _ _).mem_iff, mem_filterBundled]

theorem charListLe_total : ∀ (x y : List Char), charListLe x y = true ∨ charListLe y x = true := by
  intro x
  induction x with
  | nil => intro y; exact Or.inl rfl
  | cons a as ih =>
    intro y
    cases y with
    | nil => exact Or.inr rfl
    | cons b bs =>
      rcases lt_trichotomy a b with hab | hab | hab
      · left; simp [charListLe, hab]
      · subst hab
        rcases ih bs with h | h
        · left; simp [charListLe, lt_irrefl, h]
        · right; simp [charListLe, lt_irrefl, h]
      · right; simp [charListLe, hab]

theorem charListLe_trans :
    ∀ (x y z : List Char), charListLe x y = true → charListLe y z = true →
      charListLe x z = true := by
  intro x
  induction x with
  | nil => intro y z _ _; rfl
  | cons a as ih =>
    intro y z hxy hyz
    cases y with
    | nil => simp [charListLe] at hxy
    | cons b bs =>
      cases z with
      | nil => simp [charListLe] at hyz
      | cons c cs =>
        rw [charListLe] at hxy hyz ⊢
        rcases lt_trichotomy a b with hab | hab | hab
        · rcases lt_trichotomy b c with hbc | hbc | hbc
          · simp [lt_trans hab hbc]
          · subst hbc; simp [hab]
          · rw [if_neg (asymm hbc), if_pos hbc] at hyz; cases hyz
        · subst hab
          rcases lt_trichotomy a c with hac | hac | hac
          · simp [hac]
          · subst hac
            rw [if_neg (lt_irrefl a), if_neg (lt_irrefl a)] at hxy hyz ⊢
            exact ih bs cs hxy hyz
          · rw [if_neg (asymm hac), if_pos hac] at hyz; cases hyz
        · rw [if_neg (asymm hab), if_pos hab] at hxy; cases hxy

theorem sorted_computeSorted (merged : List String) :
    List.Sorted jsLeRel (computeSorted merged) :=
  @List.sorted_insertionSort String jsLeRel _
    ⟨fun a b => charListLe_total a.data b.data⟩
    ⟨fun a b c => charListLe_trans a.data b.data c.data⟩ _

theorem charListLe_iff_not_lt :
    ∀ (x y : List Char), charListLe x y = true ↔ ¬ List.lt y x := by
  intro x
  induction x with
  | nil =>
    intro y
    constructor
    · intro _ h; cases h
    · intro _; rfl
  | cons a as ih =>
    intro y
    cases y with
    | nil =>
      constructor
      · intro h; simp [charListLe] at h
      · intro h; exact absurd (List.lt.nil a as) h
    | cons b bs =>
      rw [charListLe]
      rcases lt_trichotomy a b with hab | hab | hab
      · rw [if_pos hab]
        constructor
        · intro _ h
          cases h with
          | head _ _ hba => exact absurd hba (asymm hab)
          | tail hba hab2 _ => exact absurd hab hab2
        · intro _; rfl
      · subst hab
        rw [if_neg (lt_irrefl a), if_neg (lt_irrefl a), ih bs]
        constructor
        · intro h hlt
          cases hlt with
          | head _ _ hba => exact absurd hba (lt_irrefl a)
          | tail _ _ hbsas => exact h hbsas
        · intro h hlt
          exact h (List.lt.tail (lt_irrefl a) (lt_irrefl a) hlt)
      · rw [if_neg (asymm hab), if_pos hab]
        constructor
        · intro h; cases h
        · intro h; exact absurd (List.lt.head bs as hab) h

theorem jsLeRel_iff_le {a b : String} : jsLeRel a b ↔ a ≤ b := by
  unfold jsLeRel
  rw [charListLe_iff_not_lt, String.le_iff_toList_le, ← not_lt]
  exact not_congr (List.lt_iff_lex_lt b.data a.data)

theorem sorted_le_computeSorted (merged : List String) :
    List.Sorted (· ≤ ·) (computeSorted merged) :=
  (sorted_computeSorted merged).imp (fun h => jsLeRel_iff_le.1 h)

theorem nodup_computeSorted {merged : List String} (h : merged.Nodup) :
    (computeSorted merged).Nodup :=
  (List.perm_insertionSort _ _).nodup_iff.2 (h.filter _)

theorem nodup_mergedDepsOf (env : DepEnv) (packageType : PackageType)
    (buildDir applicationName arch cs vs : String) :
    (mergedDepsOf env packageType buildDir applicationName arch cs vs).Nodup := by
  cases packageType
  · exact nodup_setUnion _ _
  · exact nodup_mergePackageDeps _

theorem mem_mergedDepsOf {env : DepEnv} {packageType : PackageType}
    {buildDir applicationName arch cs vs : String} {s : String} :
    s ∈ mergedDepsOf env packageType buildDir applicationName arch cs vs ↔
      ∃ ds ∈ extractorOutputsOf env packageType buildDir applicationName arch cs vs,
        ∃ d ∈ ds, jsTrim d = s ∧ keepDep s = true := by
  cases packageType
  · rw [mergedDepsOf, extractorOutputsOf, mem_setUnion, mem_mergePackageDeps, mem_mergePackageDeps]
    simp only [List.mem_append]
    constructor
    · rintro (⟨ds, hds, hd⟩ | ⟨ds, hds, hd⟩)
      · exact ⟨ds, Or.inl hds, hd⟩
      · exact ⟨ds, Or.inr hds, hd⟩
    · rintro ⟨ds, (hds | hds), hd⟩
      · exact Or.inl ⟨ds, hds, hd⟩
      · exact Or.inr ⟨ds, hds, hd⟩
  · rw [mergedDepsOf, extractorOutputsOf, mem_mergePackageDeps]

theorem getDependencies_run (failBuild : Bool) (env : DepEnv) (packageType : PackageType)
    (buildDir applicationName arch cs vs : String)
    (hv : validArch packageType arch = true) (hf : env.findStatus = 0)
    (hc : env.chromiumSysroot = Except.ok cs) (hvs : env.vscodeSysroot = Except.ok vs) :
    getDependencies failBuild env packageType buildDir applicationName arch =
      driftCheck failBuild (baseEventsOf packageType buildDir)
        (referenceOf env packageType arch)
        (computeSorted (mergedDepsOf env packageType buildDir applicationName arch cs vs)) := by
  cases packageType
  · have hd : isDebianArchString arch = true := hv
    simp [getDependencies, hd, hf, hc, hvs]
  · have hr : isRpmArchString arch = true := hv
    simp [getDependencies, hr, hf, mergedDepsOf]

theorem getDependencies_find_fail (failBuild : Bool) (env : DepEnv) (packageType : PackageType)
    (buildDir applicationName arch : String)
    (hv : validArch packageType arch = true) (hf : env.findStatus ≠ 0) :
    getDependencies failBuild env packageType buildDir applicationName arch =
      ([DepEvent.spawnFind (nativeModulesPathOf buildDir),
        DepEvent.consoleError "Error finding files:",
        DepEvent.consoleError env.findStderr], Except.ok []) := by
  cases packageType
  · have hd : isDebianArchString arch = true := hv
    simp [getDependencies, hd, hf]
  · have hr : isRpmArchString arch = true := hv
    simp [getDependencies, hr, hf]

theorem driftCheck_ne (failBuild : Bool) (events : List DepEvent)
    {referenceGeneratedDeps sortedDependencies : List String}
    (h : sortedDependencies ≠ referenceGeneratedDeps) :
    driftCheck failBuild events referenceGeneratedDeps sortedDependencies =
      if failBuild then
        (events, Except.error (failMessage referenceGeneratedDeps sortedDependencies))
      else
        (events ++ [DepEvent.consoleWarn (failMessage referenceGeneratedDeps sortedDependencies)],
         Except.ok sortedDependencies) := by
  rw [driftCheck, if_pos h]

theorem driftCheck_eq (failBuild : Bool) (events : List DepEvent)
    {referenceGeneratedDeps sortedDependencies : List String}
    (h : sortedDependencies = referenceGeneratedDeps) :
    driftCheck failBuild events referenceGeneratedDeps sortedDependencies =
      (events, Except.ok sortedDependencies) := by
  rw [driftCheck, if_neg (by simpa using h)]

theorem fetchUrl_all_fail (oracle : Nat → AttemptOutcome) (d : Nat) :
    ∀ (r i : Nat), (∀ j, j ≤ r → oracle (i + j) ≠ AttemptOutcome.ok) →
      ∃ e, oracle (i + r) = AttemptOutcome.fail e ∧
        fetchUrl oracle i r d = (r + 1, List.replicate r d, Except.error e) := by
  intro r
  induction r with
  | zero =>
    intro i h
    cases ho : oracle i with
    | ok => exact absurd (by simpa using ho) (h 0 (Nat.le_refl 0))
    | fail e =>
      refine ⟨e, by simpa using ho, ?_⟩
      rw [fetchUrl, ho]
      rfl
  | succ r ih =>
    intro i h
    cases ho : oracle i with
    | ok => exact absurd (by simpa using ho) (h 0 (Nat.zero_le _))
    | fail e0 =>
      obtain ⟨e, he, hr⟩ := ih (i + 1) (fun j hj => by
        have := h (j + 1) (Nat.succ_le_succ hj)
        simpa [Nat.add_assoc, Nat.add_comm 1 j] using this)
      refine ⟨e, ?_, ?_⟩
      · have : i + 1 + r = i + (r + 1) := by omega
        rwa [this] at he
      · rw [fetchUrl, ho]
        simp only [hr, List.replicate_succ]

theorem fetchUrl_first_ok (oracle : Nat → AttemptOutcome) (d : Nat) :
    ∀ (k r i : Nat), k ≤ r → oracle (i + k) = AttemptOutcome.ok →
      (∀ j, j < k → oracle (i + j) ≠ AttemptOutcome.ok) →
      fetchUrl oracle i r d = (k + 1, List.replicate k d, Except.ok ()) := by
  intro k
  induction k with
  | zero =>
    intro r i _ hk _
    rw [fetchUrl]
    simp only [Nat.add_zero] at hk
    rw [hk]
    rfl
  | succ k ih =>
    intro r i hkr hk hmin
    have h0 : oracle i ≠ AttemptOutcome.ok := by
      have := hmin 0 (Nat.succ_pos k)
      simpa using this
    cases ho : oracle i with
    | ok => exact absurd ho h0
    | fail e =>
      cases r with
      | zero => exact absurd hkr (by omega)
      | succ r =>
        rw [fetchUrl, ho]
        have : fetchUrl oracle (i + 1) r d = (k + 1, List.replicate k d, Except.ok ()) := by
          refine ih r (i + 1) (Nat.le_of_succ_le_succ hkr) ?_ ?_
          · have : i + 1 + k = i + (k + 1) := by omega
            rw [this]; exact hk
          · intro j hj
            have := hmin (j + 1) (Nat.succ_lt_succ hj)
            have heq : i + 1 + j = i + (j + 1) := by omega
            rw [heq]; exact this
        simp only [this, List.replicate_succ]

theorem fsGet_filter_none (q : SysPath × String → Bool) (p : SysPath)
    (h : ∀ c, q (p, c) = false) : ∀ (fs : SysFS), fsGet (fs.filter q) p = none := by
  intro fs
  induction fs with
  | nil => rfl
  | cons e fs ih =>
    rw [List.filter_cons]
    split
    · rename_i hq
      have hne : e.1 ≠ p := by
        intro hep
        obtain ⟨p1, c1⟩ := e
        simp only at hep
        subst hep
        rw [h c1] at hq
        exact Bool.false_ne_true hq
      rw [fsGet, List.find?_cons]
      have hd : decide (e.1 = p) = false := by simp [hne]
      rw [hd]
      exact ih
    · exact ih

theorem fsGet_fsWrite_same (fs : SysFS) (p : SysPath) (c : String) :
    fsGet (fsWrite fs p c) p = some c := by
  rw [fsWrite, fsGet, List.find?_cons]
  simp

theorem fsGet_fsRemoveFile_same (fs : SysFS) (p : SysPath) :
    fsGet (fsRemoveFile fs p) p = none := by
  rw [fsRemoveFile]
  apply fsGet_filter_none
  intro c
  simp

theorem fsGet_fsRemoveTree_append (fs : SysFS) (dir rest : SysPath) :
    fsGet (fsRemoveTree fs dir) (dir ++ rest) = none := by
  rw [fsRemoveTree]
  apply fsGet_filter_none
  intro c
  simp

theorem getVSCodeSysroot_no_checksum {checksums : String} {envSysrootDir : Option SysPath}
    {tmpdir : SysPath} {oracle : Nat → AttemptOutcome} {fs : SysFS} {arch : DebianArch}
    (hc : getVSCodeSysrootChecksum checksums (vscodeArchiveName arch) = none) :
    getVSCodeSysroot checksums envSysrootDir tmpdir oracle fs arch =
      (fs, [], Except.error (SysError.missingChecksum (vscodeArchiveName arch))) := by
  simp [getVSCodeSysroot, hc]

theorem getVSCodeSysroot_cache_hit {checksums : String} {envSysrootDir : Option SysPath}
    {tmpdir : SysPath} {oracle : Nat → AttemptOutcome} {fs : SysFS} {arch : DebianArch} {c : String}
    (hc : getVSCodeSysrootChecksum checksums (vscodeArchiveName arch) = some c)
    (hs : fsGet fs (stampFile (vscodeSysrootDir envSysrootDir tmpdir arch)) = some (vscodeArchiveName arch)) :
    getVSCodeSysroot checksums envSysrootDir tmpdir oracle fs arch =
      (fs, [], Except.ok (vscodeResultPath envSysrootDir tmpdir arch)) := by
  simp [getVSCodeSysroot, hc, hs]

theorem getVSCodeSysroot_acquire_ok {checksums : String} {envSysrootDir : Option SysPath}
    {tmpdir : SysPath} {oracle : Nat → AttemptOutcome} {fs : SysFS} {arch : DebianArch} {c : String}
    (hc : getVSCodeSysrootChecksum checksums (vscodeArchiveName arch) = some c)
    (hs : fsGet fs (stampFile (vscodeSysrootDir envSysrootDir tmpdir arch)) ≠ some (vscodeArchiveName arch))
    (hf : (fetchUrl oracle 0 10 1000).2.2 = Except.ok ()) :
    getVSCodeSysroot checksums envSysrootDir tmpdir oracle fs arch =
      (fsWrite (fsRemoveTree fs (vscodeSysrootDir envSysrootDir tmpdir arch))
         (stampFile (vscodeSysrootDir envSysrootDir tmpdir arch)) (vscodeArchiveName arch),
       [SysEffect.rmTree (vscodeSysrootDir envSysrootDir tmpdir arch),
        SysEffect.makeDir (vscodeSysrootDir envSysrootDir tmpdir arch), SysEffect.fetchRelease,
        SysEffect.writeFile (stampFile (vscodeSysrootDir envSysrootDir tmpdir arch)) (vscodeArchiveName arch)],
       Except.ok (vscodeResultPath envSysrootDir tmpdir arch)) := by
  simp [getVSCodeSysroot, hc, hs, hf]

theorem getVSCodeSysroot_acquire_err {checksums : String} {envSysrootDir : Option SysPath}
    {tmpdir : SysPath} {oracle : Nat → AttemptOutcome} {fs : SysFS} {arch : DebianArch}
    {c : String} {e : FetchFailure}
    (hc : getVSCodeSysrootChecksum checksums (vscodeArchiveName arch) = some c)
    (hs : fsGet fs (stampFile (vscodeSysrootDir envSysrootDir tmpdir arch)) ≠ some (vscodeArchiveName arch))
    (hf : (fetchUrl oracle 0 10 1000).2.2 = Except.error e) :
    getVSCodeSysroot checksums envSysrootDir tmpdir oracle fs arch =
      (fsRemoveTree fs (vscodeSysrootDir envSysrootDir tmpdir arch),
       [SysEffect.rmTree (vscodeSysrootDir envSysrootDir tmpdir arch),
        SysEffect.makeDir (vscodeSysrootDir envSysrootDir tmpdir arch), SysEffect.fetchRelease],
       Except.error (SysError.fetchFailed e)) := by
  simp [getVSCodeSysroot, hc, hs, hf]

theorem getVSCodeSysroot_ok_state {checksums : String} {envSysrootDir : Option SysPath}
    {tmpdir : SysPath} {oracle : Nat → AttemptOutcome} {fs : SysFS} {arch : DebianArch} {p : SysPath}
    (h : (getVSCodeSysroot checksums envSysrootDir tmpdir oracle fs arch).2.2 = Except.ok p) :
    p = vscodeResultPath envSysrootDir tmpdir arch ∧
    (∃ c, getVSCodeSysrootChecksum checksums (vscodeArchiveName arch) = some c) ∧
    fsGet (getVSCodeSysroot checksums envSysrootDir tmpdir oracle fs arch).1
      (stampFile (vscodeSysrootDir envSysrootDir tmpdir arch)) = some (vscodeArchiveName arch) := by
  cases hc : getVSCodeSysrootChecksum checksums (vscodeArchiveName arch) with
  | none => rw [getVSCodeSysroot_no_checksum hc] at h; cases h
  | some c =>
    by_cases hs : fsGet fs (stampFile (vscodeSysrootDir envSysrootDir tmpdir arch)) = some (vscodeArchiveName arch)
    · rw [getVSCodeSysroot_cache_hit hc hs] at h ⊢
      refine ⟨by cases h; rfl, ⟨c, rfl⟩, hs⟩
    · cases hf : (fetchUrl oracle 0 10 1000).2.2 with
      | ok u =>
        cases u
        rw [getVSCodeSysroot_acquire_ok hc hs hf] at h ⊢
        refine ⟨by cases h; rfl, ⟨c, rfl⟩, ?_⟩
        exact fsGet_fsWrite_same _ _ _
      | error e =>
        rw [getVSCodeSysroot_acquire_err hc hs hf] at h
        cases h

theorem getChromiumSysroot_curl_fail {electronVersion : String} {tmpdir : SysPath}
    {curlStatus : Nat} {manifest : String → SysrootEntry} {dlOracle : Nat → DownloadOutcome}
    {sha1 : String → String} {tarStatus : Nat} {fs : SysFS} {arch : String}
    (h : curlStatus ≠ 0) :
    getChromiumSysroot electronVersion tmpdir curlStatus manifest dlOracle sha1 tarStatus fs arch =
      (fs, [SysEffect.curlManifest (chromiumManifestUrl electronVersion)],
       Except.error SysError.manifestFailed) := by
  simp [getChromiumSysroot, h]

theorem getChromiumSysroot_cache_hit {electronVersion : String} {tmpdir : SysPath}
    {manifest : String → SysrootEntry} {dlOracle : Nat → DownloadOutcome}
    {sha1 : String → String} {tarStatus : Nat} {fs : SysFS} {arch : String}
    (hs : fsGet fs (stampFile (chromiumSysrootDirOf tmpdir manifest arch)) =
            some (chromiumUrlOf (manifest (chromiumArchKey arch)))) :
    getChromiumSysroot electronVersion tmpdir 0 manifest dlOracle sha1 tarStatus fs arch =
      (fs, [SysEffect.curlManifest (chromiumManifestUrl electronVersion)],
       Except.ok (chromiumSysrootDirOf tmpdir manifest arch)) := by
  simp [getChromiumSysroot, hs]

theorem getChromiumSysroot_dl_fail {electronVersion : String} {tmpdir : SysPath}
    {manifest : String → SysrootEntry} {dlOracle : Nat → DownloadOutcome}
    {sha1 : String → String} {tarStatus : Nat} {fs : SysFS} {arch : String}
    (hs : fsGet fs (stampFile (chromiumSysrootDirOf tmpdir manifest arch)) ≠
            some (chromiumUrlOf (manifest (chromiumArchKey arch))))
    (hdl : (downloadLoop dlOracle 0 3).2 = none) :
    getChromiumSysroot electronVersion tmpdir 0 manifest dlOracle sha1 tarStatus fs arch =
      (fsRemoveFile
         (fsWrite (fsRemoveTree fs (chromiumSysrootDirOf tmpdir manifest arch))
            (chromiumSysrootDirOf tmpdir manifest arch ++ [(manifest (chromiumArchKey arch)).tarball]) "")
         (chromiumSysrootDirOf tmpdir manifest arch ++ [(manifest (chromiumArchKey arch)).tarball]),
       [SysEffect.curlManifest (chromiumManifestUrl electronVersion),
        SysEffect.rmTree (chromiumSysrootDirOf tmpdir manifest arch),
        SysEffect.makeDir (chromiumSysrootDirOf tmpdir manifest arch)]
         ++ List.replicate (downloadLoop dlOracle 0 3).1
              (SysEffect.httpGet (chromiumUrlOf (manifest (chromiumArchKey arch))))
         ++ [SysEffect.removeFile (chromiumSysrootDirOf tmpdir manifest arch ++ [(manifest (chromiumArchKey arch)).tarball])],
       Except.error (SysError.downloadFailed (chromiumUrlOf (manifest (chromiumArchKey arch))))) := by
  simp [getChromiumSysroot, hs, hdl]

theorem getChromiumSysroot_sha_fail {electronVersion : String} {tmpdir : SysPath}
    {manifest : String → SysrootEntry} {dlOracle : Nat → DownloadOutcome}
    {sha1 : String → String} {tarStatus : Nat} {fs : SysFS} {arch : String} {contents : String}
    (hs : fsGet fs (stampFile (chromiumSysrootDirOf tmpdir manifest arch)) ≠
            some (chromiumUrlOf (manifest (chromiumArchKey arch))))
    (hdl : (downloadLoop dlOracle 0 3).2 = some contents)
    (hsha : sha1 contents ≠ (manifest (chromiumArchKey arch)).sha1sum) :
    getChromiumSysroot electronVersion tmpdir 0 manifest dlOracle sha1 tarStatus fs arch =
      (fsWrite (fsRemoveTree fs (chromiumSysrootDirOf tmpdir manifest arch))
         (chromiumSysrootDirOf tmpdir manifest arch ++ [(manifest (chromiumArchKey arch)).tarball]) contents,
       [SysEffect.curlManifest (chromiumManifestUrl electronVersion),
        SysEffect.rmTree (chromiumSysrootDirOf tmpdir manifest arch),
        SysEffect.makeDir (chromiumSysrootDirOf tmpdir manifest arch)]
         ++ List.replicate (downloadLoop dlOracle 0 3).1
              (SysEffect.httpGet (chromiumUrlOf (manifest (chromiumArchKey arch)))),
       Except.error (SysError.shaMismatch (manifest (chromiumArchKey arch)).sha1sum (sha1 contents))) := by
  simp [getChromiumSysroot, hs, hdl, hsha]

theorem getChromiumSysroot_tar_fail {electronVersion : String} {tmpdir : SysPath}
    {manifest : String → SysrootEntry} {dlOracle : Nat → DownloadOutcome}
    {sha1 : String → String} {tarStatus : Nat} {fs : SysFS} {arch : String} {contents : String}
    (hs : fsGet fs (stampFile (chromiumSysrootDirOf tmpdir manifest arch)) ≠
            some (chromiumUrlOf (manifest (chromiumArchKey arch))))
    (hdl : (downloadLoop dlOracle 0 3).2 = some contents)
    (hsha : sha1 contents = (manifest (chromiumArchKey arch)).sha1sum)
    (htar : tarStatus ≠ 0) :
    getChromiumSysroot electronVersion tmpdir 0 manifest dlOracle sha1 tarStatus fs arch =
      (fsWrite (fsRemoveTree fs (chromiumSysrootDirOf tmpdir manifest arch))
         (chromiumSysrootDirOf tmpdir manifest arch ++ [(manifest (chromiumArchKey arch)).tarball]) contents,
       [SysEffect.curlManifest (chromiumManifestUrl electronVersion),
        SysEffect.rmTree (chromiumSysrootDirOf tmpdir manifest arch),
        SysEffect.makeDir (chromiumSysrootDirOf tmpdir manifest arch)]
         ++ List.replicate (downloadLoop dlOracle 0 3).1
              (SysEffect.httpGet (chromiumUrlOf (manifest (chromiumArchKey arch))))
         ++ [SysEffect.runTar (chromiumSysrootDirOf tmpdir manifest arch ++ [(manifest (chromiumArchKey arch)).tarball])],
       Except.error (SysError.extractFailed tarStatus)) := by
  simp [getChromiumSysroot, hs, hdl, hsha, htar]

theorem getChromiumSysroot_acquire_ok {electronVersion : String} {tmpdir : SysPath}
    {manifest : String → SysrootEntry} {dlOracle : Nat → DownloadOutcome}
    {sha1 : String → String} {fs : SysFS} {arch : String} {contents : String}
    (hs : fsGet fs (stampFile (chromiumSysrootDirOf tmpdir manifest arch)) ≠
            some (chromiumUrlOf (manifest (chromiumArchKey arch))))
    (hdl : (downloadLoop dlOracle 0 3).2 = some contents)
    (hsha : sha1 contents = (manifest (chromiumArchKey arch)).sha1sum) :
    getChromiumSysroot electronVersion tmpdir 0 manifest dlOracle sha1 0 fs arch =
      (fsWrite
         (fsRemoveFile
           (fsWrite (fsRemoveTree fs (chromiumSysrootDirOf tmpdir manifest arch))
              (chromiumSysrootDirOf tmpdir manifest arch ++ [(manifest (chromiumArchKey arch)).tarball]) contents)
           (chromiumSysrootDirOf tmpdir manifest arch ++ [(manifest (chromiumArchKey arch)).tarball]))
         (stampFile (chromiumSysrootDirOf tmpdir manifest arch))
         (chromiumUrlOf (manifest (chromiumArchKey arch))),
       [SysEffect.curlManifest (chromiumManifestUrl electronVersion),
        SysEffect.rmTree (chromiumSysrootDirOf tmpdir manifest arch),
        SysEffect.makeDir (chromiumSysrootDirOf tmpdir manifest arch)]
         ++ List.replicate (downloadLoop dlOracle 0 3).1
              (SysEffect.httpGet (chromiumUrlOf (manifest (chromiumArchKey arch))))
         ++ [SysEffect.runTar (chromiumSysrootDirOf tmpdir manifest arch ++ [(manifest (chromiumArchKey arch)).tarball]),
             SysEffect.removeFile (chromiumSysrootDirOf tmpdir manifest arch ++ [(manifest (chromiumArchKey arch)).tarball]),
             SysEffect.writeFile (stampFile (chromiumSysrootDirOf tmpdir manifest arch))
               (chromiumUrlOf (manifest (chromiumArchKey arch)))],
       Except.ok (chromiumSysrootDirOf tmpdir manifest arch)) := by
  simp [getChromiumSysroot, hs, hdl, hsha]

theorem getChromiumSysroot_ok_state {electronVersion : String} {tmpdir : SysPath}
    {manifest : String → SysrootEntry} {dlOracle : Nat → DownloadOutcome}
    {sha1 : String → String} {tarStatus : Nat} {fs : SysFS} {arch : String} {p : SysPath}
    (h : (getChromiumSysroot electronVersion tmpdir 0 manifest dlOracle sha1 tarStatus fs arch).2.2 =
           Except.ok p) :
    p = chromiumSysrootDirOf tmpdir manifest arch ∧
    fsGet (getChromiumSysroot electronVersion tmpdir 0 manifest dlOracle sha1 tarStatus fs arch).1
      (stampFile (chromiumSysrootDirOf tmpdir manifest arch)) =
        some (chromiumUrlOf (manifest (chromiumArchKey arch))) := by
  by_cases hs : fsGet fs (stampFile (chromiumSysrootDirOf tmpdir manifest arch)) =
      some (chromiumUrlOf (manifest (chromiumArchKey arch)))
  · rw [getChromiumSysroot_cache_hit hs] at h ⊢
    exact ⟨by cases h; rfl, hs⟩
  · cases hdl : (downloadLoop dlOracle 0 3).2 with
    | none => rw [getChromiumSysroot_dl_fail hs hdl] at h; cases h
    | some contents =>
      by_cases hsha : sha1 contents = (manifest (chromiumArchKey arch)).sha1sum
      · by_cases htar : tarStatus = 0
        · subst htar
          rw [getChromiumSysroot_acquire_ok hs hdl hsha] at h ⊢
          exact ⟨by cases h; rfl, fsGet_fsWrite_same _ _ _⟩
        · rw [getChromiumSysroot_tar_fail hs hdl hsha htar] at h; cases h
      · rw [getChromiumSysroot_sha_fail hs hdl hsha] at h; cases h

theorem fsGet_filter_irrelevant (q : SysPath × String → Bool) (p : SysPath)
    (h : ∀ c, q (p, c) = true) : ∀ (fs : SysFS), fsGet (fs.filter q) p = fsGet fs p := by
  intro fs
  induction fs with
  | nil => rfl
  | cons e fs ih =>
    by_cases hep : e.1 = p
    · have hq : q e = true := by
        obtain ⟨p1, c1⟩ := e
        simp only at hep
        subst hep
        exact h c1
      have hd : decide (e.1 = p) = true := by simp [hep]
      simp only [List.filter_cons, hq, if_true, fsGet, List.find?_cons, hd]
    · have hd : decide (e.1 = p) = false := by simp [hep]
      simp only [fsGet] at ih
      cases hq : q e with
      | true =>
        simp only [List.filter_cons, hq, if_true, fsGet, List.find?_cons, hd]
        exact ih
      | false =>
        simp only [List.filter_cons, hq, Bool.false_eq_true, if_false, fsGet, List.find?_cons, hd]
        exact ih

theorem fsGet_fsWrite_ne (fs : SysFS) {p q : SysPath} (c : String) (h : p ≠ q) :
    fsGet (fsWrite fs q c) p = fsGet fs p := by
  rw [fsWrite, fsGet, List.find?_cons]
  have hd : decide ((q, c).1 = p) = false := by simp [Ne.symm h]
  rw [hd]
  exact fsGet_filter_irrelevant _ _ (fun c1 => by simp [h]) fs

theorem fsGet_fsRemoveFile_ne (fs : SysFS) {p q : SysPath} (h : p ≠ q) :
    fsGet (fsRemoveFile fs q) p = fsGet fs p :=
  fsGet_filter_irrelevant _ _ (fun c1 => by simp [h]) fs

theorem downloadLoop_pos (dlOracle : Nat → DownloadOutcome) (i n : Nat) :
    1 ≤ (downloadLoop dlOracle i (n + 1)).1 := by
  rw [downloadLoop]
  cases dlOracle i
  · exact Nat.le_refl 1
  · exact Nat.le_add_left 1 _

theorem getVSCodeSysroot_miss_fetch {checksums : String} {envSysrootDir : Option SysPath}
    {tmpdir : SysPath} {oracle : Nat → AttemptOutcome} {fs : SysFS} {arch : DebianArch} {c : String}
    (hc : getVSCodeSysrootChecksum checksums (vscodeArchiveName arch) = some c)
    (hs : fsGet fs (stampFile (vscodeSysrootDir envSysrootDir tmpdir arch)) ≠ some (vscodeArchiveName arch)) :
    SysEffect.fetchRelease ∈ (getVSCodeSysroot checksums envSysrootDir tmpdir oracle fs arch).2.1 := by
  cases hf : (fetchUrl oracle 0 10 1000).2.2 with
  | ok u =>
    cases u
    rw [getVSCodeSysroot_acquire_ok hc hs hf]
    simp
  | error e =>
    rw [getVSCodeSysroot_acquire_err hc hs hf]
    simp

theorem getChromiumSysroot_miss_httpGet {electronVersion : String} {tmpdir : SysPath}
    {manifest : String → SysrootEntry} {dlOracle : Nat → DownloadOutcome}
    {sha1 : String → String} {tarStatus : Nat} {fs : SysFS} {arch : String}
    (hs : fsGet fs (stampFile (chromiumSysrootDirOf tmpdir manifest arch)) ≠
            some (chromiumUrlOf (manifest (chromiumArchKey arch)))) :
    SysEffect.httpGet (chromiumUrlOf (manifest (chromiumArchKey arch))) ∈
      (getChromiumSysroot electronVersion tmpdir 0 manifest dlOracle sha1 tarStatus fs arch).2.1 := by
  have hpos : (downloadLoop dlOracle 0 3).1 ≠ 0 := by
    have h := downloadLoop_pos dlOracle 0 2
    norm_num at h
    omega
  cases hdl : (downloadLoop dlOracle 0 3).2 with
  | none =>
    rw [getChromiumSysroot_dl_fail hs hdl]
    simp [List.mem_append, List.mem_replicate, hpos]
  | some contents =>
    by_cases hsha : sha1 contents = (manifest (chromiumArchKey arch)).sha1sum
    · by_cases htar : tarStatus = 0
      · subst htar
        rw [getChromiumSysroot_acquire_ok hs hdl hsha]
        simp [List.mem_append, List.mem_replicate, hpos]
      · rw [getChromiumSysroot_tar_fail hs hdl hsha htar]
        simp [List.mem_append, List.mem_replicate, hpos]
    · rw [getChromiumSysroot_sha_fail hs hdl hsha]
      simp [List.mem_append, List.mem_replicate, hpos]

/-- C1 (amended): `fetchUrl` called with its default parameters (`retries = 10`,
`retryDelay = 1000`) performs a fixed-delay retry with up to 11 attempts (one
initial attempt plus 10 retries) and a 1-second delay between consecutive
attempts; every failure kind — network error, non-2xx status, missing asset,
checksum mismatch (the oracle ranges over all of `FetchFailure`) — abandons
that attempt and, if attempts remain, is retried after the delay; exhausting
all attempts surfaces the last attempt's failure to the caller. -/
theorem claim_C1 (oracle : Nat → AttemptOutcome) :
    ((∀ i, i ≤ 10 → oracle i ≠ AttemptOutcome.ok) →
      ∃ e, oracle 10 = AttemptOutcome.fail e ∧
        fetchUrlDefault oracle = (11, List.replicate 10 1000, Except.error e)) ∧
    (∀ k, k ≤ 10 → oracle k = AttemptOutcome.ok →
      (∀ j, j < k → oracle j ≠ AttemptOutcome.ok) →
      fetchUrlDefault oracle = (k + 1, List.replicate k 1000, Except.ok ())) := by
  constructor
  · intro h
    obtain ⟨e, he, hr⟩ := fetchUrl_all_fail oracle 1000 10 0
      (fun j hj hok => h j hj (by simpa using hok))
    exact ⟨e, by simpa using he, hr⟩
  · intro k hk hok hmin
    exact fetchUrl_first_ok oracle 1000 k 10 0 hk (by simpa using hok)
      (fun j hj hok2 => hmin j hj (by simpa using hok2))

/-- C1 counterexample: with ten checksum-mismatch failures followed by a
success, the default `fetchUrl` performs an eleventh attempt and succeeds, so
the claimed "10 attempts" (after which the last failure would surface) is
wrong: the parameter `retries = 10` counts retries after the initial attempt. -/
theorem claim_C1_cex :
    fetchUrlDefault cexOracle = (11, List.replicate 10 1000, Except.ok ()) ∧
    (fetchUrlDefault cexOracle).1 ≠ 10 ∧
    cexOracle 0 = AttemptOutcome.fail (FetchFailure.checksumMismatch "expected" "actual") ∧
    cexOracle 9 = AttemptOutcome.fail (FetchFailure.checksumMismatch "expected" "actual") :=
  ⟨rfl, by decide, rfl, rfl⟩

/-- C1 witness: the amended theorem applied to an all-failing oracle: 11
attempts, 10 one-second delays, and the last failure surfaced. -/
theorem claim_C1_w :
    fetchUrlDefault exOracleFail =
      (11, List.replicate 10 1000,
       Except.error (FetchFailure.assetMissing "x86_64-linux-gnu.tar.gz")) := by
  obtain ⟨e, he, hr⟩ := (claim_C1 exOracleFail).1 (fun i _ h => by simp [exOracleFail] at h)
  have hee : e = FetchFailure.assetMissing "x86_64-linux-gnu.tar.gz" := by
    have : AttemptOutcome.fail (FetchFailure.assetMissing "x86_64-linux-gnu.tar.gz") =
        AttemptOutcome.fail e := he
    cases this
    rfl
  rw [hee] at hr
  exact hr

/-- C8: for every architecture token outside the valid enumeration for the
package type, `getDependencies` throws the invalid-architecture error with an
empty event trace: no `find` spawn, no sysroot acquisition, no extractor run —
i.e. before any filesystem or network access. -/
theorem claim_C8 :
    (∀ (failBuild : Bool) (env : DepEnv) (buildDir applicationName arch : String),
        isDebianArchString arch = false →
        getDependencies failBuild env PackageType.deb buildDir applicationName arch =
          ([], Except.error ("Invalid Debian arch string " ++ arch))) ∧
    (∀ (failBuild : Bool) (env : DepEnv) (buildDir applicationName arch : String),
        isRpmArchString arch = false →
        getDependencies failBuild env PackageType.rpm buildDir applicationName arch =
          ([], Except.error ("Invalid RPM arch string " ++ arch))) := by
  constructor
  · intro fb env bd app arch h
    simp [getDependencies, h]
  · intro fb env bd app arch h
    simp [getDependencies, h]

/-- C8 witness: the unrecognized token `mips` is rejected by both package
types with an empty event trace. -/
theorem claim_C8_w :
    getDependencies true baseEnv PackageType.deb "build" "code" "mips" =
      ([], Except.error ("Invalid Debian arch string " ++ "mips")) ∧
    getDependencies true baseEnv PackageType.rpm "build" "code" "mips" =
      ([], Except.error ("Invalid RPM arch string " ++ "mips")) :=
  ⟨(claim_C8).1 true baseEnv "build" "code" "mips" (by decide),
   (claim_C8).2 true baseEnv "build" "code" "mips" (by decide)⟩

/-- C9: when the `find` subprocess exits non-zero, `getDependencies` does not
throw: it logs the two error lines to the console and returns the empty list. -/
theorem claim_C9 (failBuild : Bool) (env : DepEnv) (packageType : PackageType)
    (buildDir applicationName arch : String)
    (hv : validArch packageType arch = true) (hf : env.findStatus ≠ 0) :
    getDependencies failBuild env packageType buildDir applicationName arch =
      ([DepEvent.spawnFind (nativeModulesPathOf buildDir),
        DepEvent.consoleError "Error finding files:",
        DepEvent.consoleError env.findStderr], Except.ok []) :=
  getDependencies_find_fail failBuild env packageType buildDir applicationName arch hv hf

/-- C9 witness: a failing `find` on the Debian path logs and returns `[]`. -/
theorem claim_C9_w :
    getDependencies true envFindFail PackageType.deb "build" "code" "amd64" =
      ([DepEvent.spawnFind (nativeModulesPathOf "build"),
        DepEvent.consoleError "Error finding files:",
        DepEvent.consoleError "find: no such directory"], Except.ok []) :=
  claim_C9 true envFindFail PackageType.deb "build" "code" "amd64" (by decide) (by decide)

/-- C10: when file enumeration fails, `getDependencies` returns the empty list
immediately and the baseline comparison is never reached: for every non-empty
baseline, even with strict mode on, no drift error is raised, no warning is
logged, and the returned sequence is empty (and differs from the baseline). -/
theorem claim_C10 (env : DepEnv) (packageType : PackageType)
    (buildDir applicationName arch : String)
    (hv : validArch packageType arch = true) (hf : env.findStatus ≠ 0)
    (href : referenceOf env packageType arch ≠ []) :
    (getDependencies true env packageType buildDir applicationName arch).2 = Except.ok [] ∧
    ([] : List String) ≠ referenceOf env packageType arch ∧
    (∀ m, DepEvent.consoleWarn m ∉ (getDependencies true env packageType buildDir applicationName arch).1) := by
  rw [getDependencies_find_fail true env packageType buildDir applicationName arch hv hf]
  refine ⟨rfl, fun h => href h.symm, ?_⟩
  intro m hm
  simp at hm

/-- C10 witness: with a failing `find` and the non-empty baseline `["libX"]`,
strict mode raises no error and the empty list is returned. -/
theorem claim_C10_w :
    (getDependencies true envFindFail PackageType.deb "build" "code" "amd64").2 = Except.ok [] ∧
    ([] : List String) ≠ referenceOf envFindFail PackageType.deb "amd64" ∧
    (∀ m, DepEvent.consoleWarn m ∉ (getDependencies true envFindFail PackageType.deb "build" "code" "amd64").1) :=
  claim_C10 envFindFail PackageType.deb "build" "code" "amd64" (by decide) (by decide) (by decide)

/-- C2: the drift comparison of `getDependencies` is an ordered list-equality
check between the computed sorted sequence and the baseline, not a
set-equality check: under strict mode the call succeeds exactly when the two
sequences are equal as lists, and concretely a baseline `["libB","libA"]`
against computed `["libA","libB"]` is flagged as drift (strict mode throws the
diff message) even though the two are permutations of each other. -/
theorem claim_C2 :
    (∀ (env : DepEnv) (packageType : PackageType) (buildDir applicationName arch cs vs : String),
        validArch packageType arch = true → env.findStatus = 0 →
        env.chromiumSysroot = Except.ok cs → env.vscodeSysroot = Except.ok vs →
        ((∃ l, (getDependencies true env packageType buildDir applicationName arch).2 = Except.ok l) ↔
          computeSorted (mergedDepsOf env packageType buildDir applicationName arch cs vs) =
            referenceOf env packageType arch)) ∧
    ((getDependencies true envPerm PackageType.rpm "build" "app" "x86_64").2 =
        Except.error (failMessage ["libB", "libA"] ["libA", "libB"]) ∧
      List.Perm ["libA", "libB"] ["libB", "libA"] ∧
      referenceOf envPerm PackageType.rpm "x86_64" = ["libB", "libA"]) := by
  constructor
  · intro env pt bd app arch cs vs hv hf hc hvs
    rw [getDependencies_run true env pt bd app arch cs vs hv hf hc hvs]
    by_cases heq : computeSorted (mergedDepsOf env pt bd app arch cs vs) = referenceOf env pt arch
    · rw [driftCheck_eq true _ heq]
      simp [heq]
    · rw [driftCheck_ne true _ heq]
      simp [heq]
  · exact ⟨rfl, by decide, rfl⟩

/-- C2 witness: the matching Debian scenario, where the computed sequence
equals the baseline and the strict call returns successfully. -/
theorem claim_C2_w :
    (∃ l, (getDependencies true envMatch PackageType.deb "build" "code" "amd64").2 = Except.ok l) ↔
      computeSorted (mergedDepsOf envMatch PackageType.deb "build" "code" "amd64" "cs" "vs") =
        referenceOf envMatch PackageType.deb "amd64" :=
  (claim_C2).1 envMatch PackageType.deb "build" "code" "amd64" "cs" "vs" (by decide) rfl rfl rfl

/-- C3: whenever the computed sorted sequence differs from the baseline,
`getDependencies` builds the diff message listing both sequences; with the
strict toggle set it throws that message, with the toggle unset it logs the
message as a warning and returns the full computed sorted sequence; when the
sequences are equal it returns the sorted sequence with no error and no
warning. -/
theorem claim_C3 (env : DepEnv) (packageType : PackageType)
    (buildDir applicationName arch cs vs : String)
    (hv : validArch packageType arch = true) (hf : env.findStatus = 0)
    (hc : env.chromiumSysroot = Except.ok cs) (hvs : env.vscodeSysroot = Except.ok vs) :
    (computeSorted (mergedDepsOf env packageType buildDir applicationName arch cs vs) ≠
        referenceOf env packageType arch →
      getDependencies true env packageType buildDir applicationName arch =
        (baseEventsOf packageType buildDir,
         Except.error (failMessage (referenceOf env packageType arch)
           (computeSorted (mergedDepsOf env packageType buildDir applicationName arch cs vs)))) ∧
      getDependencies false env packageType buildDir applicationName arch =
        (baseEventsOf packageType buildDir ++
           [DepEvent.consoleWarn (failMessage (referenceOf env packageType arch)
             (computeSorted (mergedDepsOf env packageType buildDir applicationName arch cs vs)))],
         Except.ok (computeSorted (mergedDepsOf env packageType buildDir applicationName arch cs vs)))) ∧
    (computeSorted (mergedDepsOf env packageType buildDir applicationName arch cs vs) =
        referenceOf env packageType arch →
      ∀ failBuild,
        getDependencies failBuild env packageType buildDir applicationName arch =
          (baseEventsOf packageType buildDir,
           Except.ok (computeSorted (mergedDepsOf env packageType buildDir applicationName arch cs vs)))) := by
  constructor
  · intro hne
    constructor
    · rw [getDependencies_run true env packageType buildDir applicationName arch cs vs hv hf hc hvs,
        driftCheck_ne true _ hne]
      simp
    · rw [getDependencies_run false env packageType buildDir applicationName arch cs vs hv hf hc hvs,
        driftCheck_ne false _ hne]
      simp
  · intro heq fb
    rw [getDependencies_run fb env packageType buildDir applicationName arch cs vs hv hf hc hvs,
      driftCheck_eq fb _ heq]

/-- C3 witness: the end-to-end drift scenario — the Debian amd64 extractor
additionally returns `libnew.so.1` over the baseline
`["libc.so.6","libpthread.so.0"]`; strict mode throws the diff message naming
both sequences, permissive mode returns the full sorted list including
`libnew.so.1`. -/
theorem claim_C3_w :
    getDependencies true envDrift PackageType.deb "build" "code" "amd64" =
      (baseEventsOf PackageType.deb "build",
       Except.error (failMessage ["libc.so.6", "libpthread.so.0"]
         ["libc.so.6", "libnew.so.1", "libpthread.so.0"])) ∧
    (getDependencies false envDrift PackageType.deb "build" "code" "amd64").2 =
      Except.ok ["libc.so.6", "libnew.so.1", "libpthread.so.0"] := by
  have h := (claim_C3 envDrift PackageType.deb "build" "code" "amd64" "cs" "vs"
    (by decide) rfl rfl rfl).1 (by decide)
  have e2 : computeSorted (mergedDepsOf envDrift PackageType.deb "build" "code" "amd64" "cs" "vs") =
      ["libc.so.6", "libnew.so.1", "libpthread.so.0"] := by decide
  have e1 : referenceOf envDrift PackageType.deb "amd64" = ["libc.so.6", "libpthread.so.0"] := rfl
  constructor
  · have h1 := h.1
    rw [e1, e2] at h1
    exact h1
  · have h2 := h.2
    rw [e1, e2] at h2
    rw [h2]

/-- C6: bundled-dependency filtering removes exactly the dependency strings
having some bundled-list entry as a prefix at position 0 (`d = b ++ t` for
some tail `t`): with a bundled list containing `libfoo.so`, the dependency
`libfoo.so.2` is removed while `notlibfoo.so` is kept; with the fixed
`bundledDeps` used by `getDependencies`, `libEGL.so.1` is removed while
`notlibEGL.so` is kept. -/
theorem claim_C6 :
    (∀ (bundled deps : List String) (d : String),
        d ∈ filterBundled bundled deps ↔
          d ∈ deps ∧ ∀ b ∈ bundled, ¬ ∃ t, d = b ++ t) ∧
    filterBundled ["libfoo.so"] ["libfoo.so.2", "notlibfoo.so"] = ["notlibfoo.so"] ∧
    computeSorted ["libEGL.so.1", "notlibEGL.so"] = ["notlibEGL.so"] := by
  refine ⟨?_, by decide, by decide⟩
  intro bundled deps d
  rw [mem_filterBundled]
  constructor
  · rintro ⟨hd, hb⟩
    refine ⟨hd, fun b hbb hex => ?_⟩
    have hjs := jsStartsWith_iff.2 hex
    rw [hb b hbb] at hjs
    exact Bool.false_ne_true hjs
  · rintro ⟨hd, hb⟩
    refine ⟨hd, fun b hbb => ?_⟩
    cases hjs : jsStartsWith d b
    · rfl
    · exact absurd (jsStartsWith_iff.1 hjs) (hb b hbb)

/-- C6 witness: the prefix characterization applied to the hypothetical
bundled list `["libfoo.so"]` at the dependency `libfoo.so.2`. -/
theorem claim_C6_w :
    "libfoo.so.2" ∈ filterBundled ["libfoo.so"] ["libfoo.so.2", "notlibfoo.so"] ↔
      "libfoo.so.2" ∈ ["libfoo.so.2", "notlibfoo.so"] ∧
        ∀ b ∈ ["libfoo.so"], ¬ ∃ t, "libfoo.so.2" = b ++ t :=
  (claim_C6).1 ["libfoo.so"] ["libfoo.so.2", "notlibfoo.so"] "libfoo.so.2"

/-- C7: for any extractor outputs, the list returned by `getDependencies`
(permissive mode, so the drift check cannot throw) consists exactly of the
distinct trimmed entries of the per-file dependency sets that are non-empty,
not `#`-comments and not bundled-prefixed — each appearing once (`Nodup`),
sorted lexicographically; concretely, merging `{"libA"}` with
`{"libA","libB"}` yields exactly `["libA","libB"]`. -/
theorem claim_C7 :
    (∀ (env : DepEnv) (packageType : PackageType) (buildDir applicationName arch cs vs : String),
        validArch packageType arch = true → env.findStatus = 0 →
        env.chromiumSysroot = Except.ok cs → env.vscodeSysroot = Except.ok vs →
        (getDependencies false env packageType buildDir applicationName arch).2 =
           Except.ok (computeSorted (mergedDepsOf env packageType buildDir applicationName arch cs vs)) ∧
        List.Sorted (· ≤ ·) (computeSorted (mergedDepsOf env packageType buildDir applicationName arch cs vs)) ∧
        (computeSorted (mergedDepsOf env packageType buildDir applicationName arch cs vs)).Nodup ∧
        (∀ s, s ∈ computeSorted (mergedDepsOf env packageType buildDir applicationName arch cs vs) ↔
          ((∃ ds ∈ extractorOutputsOf env packageType buildDir applicationName arch cs vs,
              ∃ d ∈ ds, jsTrim d = s) ∧
            s ≠ "" ∧ jsStartsWith s "#" = false ∧
            ∀ b ∈ bundledDeps, jsStartsWith s b = false))) ∧
    (getDependencies false envMerge PackageType.rpm "build" "app" "x86_64").2 =
      Except.ok ["libA", "libB"] := by
  constructor
  · intro env pt bd app arch cs vs hv hf hc hvs
    refine ⟨?_, sorted_le_computeSorted _,
      nodup_computeSorted (nodup_mergedDepsOf env pt bd app arch cs vs), ?_⟩
    · rw [getDependencies_run false env pt bd app arch cs vs hv hf hc hvs]
      by_cases heq : computeSorted (mergedDepsOf env pt bd app arch cs vs) = referenceOf env pt arch
      · rw [driftCheck_eq false _ heq]
      · rw [driftCheck_ne false _ heq]
        simp
    · intro s
      rw [mem_computeSorted, mem_mergedDepsOf]
      constructor
      · rintro ⟨⟨ds, hds, d, hd, htrim, hkeep⟩, hb⟩
        obtain ⟨hne, hhash⟩ := keepDep_iff.1 hkeep
        exact ⟨⟨ds, hds, d, hd, htrim⟩, hne, hhash, hb⟩
      · rintro ⟨⟨ds, hds, d, hd, htrim⟩, hne, hhash, hb⟩
        exact ⟨⟨ds, hds, d, hd, htrim, keepDep_iff.2 ⟨hne, hhash⟩⟩, hb⟩
  · rfl

/-- C7 witness: the characterization applied to the duplicate-merge scenario. -/
theorem claim_C7_w :
    (getDependencies false envMerge PackageType.rpm "build" "app" "x86_64").2 =
      Except.ok (computeSorted (mergedDepsOf envMerge PackageType.rpm "build" "app" "x86_64" "cs" "vs")) :=
  ((claim_C7).1 envMerge PackageType.rpm "build" "app" "x86_64" "cs" "vs" (by decide) rfl rfl rfl).1

/-- C4 (amended): for both provisioners, a marker file whose content equals
the expected identifier (the expected archive name for `getVSCodeSysroot`,
the full constructed URL for `getChromiumSysroot`) makes the call return the
precomputed path with the filesystem unchanged and — for Variant A (given the
checksum lookup succeeds, which is checked before the marker) — no effects at
all; for Variant B the manifest is still downloaded over the network via
`curl` on every call (the single `curlManifest` event), but no deletion,
tarball download, extraction or write occurs. Hence a second call after any
successful call returns the same path through the marker check alone. -/
theorem claim_C4 :
    (∀ (checksums : String) (envSysrootDir : Option SysPath) (tmpdir : SysPath)
        (oracle : Nat → AttemptOutcome) (fs : SysFS) (arch : DebianArch) (c : String),
        getVSCodeSysrootChecksum checksums (vscodeArchiveName arch) = some c →
        fsGet fs (stampFile (vscodeSysrootDir envSysrootDir tmpdir arch)) = some (vscodeArchiveName arch) →
        getVSCodeSysroot checksums envSysrootDir tmpdir oracle fs arch =
          (fs, [], Except.ok (vscodeResultPath envSysrootDir tmpdir arch))) ∧
    (∀ (electronVersion : String) (tmpdir : SysPath) (manifest : String → SysrootEntry)
        (dlOracle : Nat → DownloadOutcome) (sha1 : String → String) (tarStatus : Nat)
        (fs : SysFS) (arch : String),
        fsGet fs (stampFile (chromiumSysrootDirOf tmpdir manifest arch)) =
            some (chromiumUrlOf (manifest (chromiumArchKey arch))) →
        getChromiumSysroot electronVersion tmpdir 0 manifest dlOracle sha1 tarStatus fs arch =
          (fs, [SysEffect.curlManifest (chromiumManifestUrl electronVersion)],
           Except.ok (chromiumSysrootDirOf tmpdir manifest arch))) ∧
    (∀ (checksums : String) (envSysrootDir : Option SysPath) (tmpdir : SysPath)
        (oracle oracle2 : Nat → AttemptOutcome) (fs : SysFS) (arch : DebianArch) (p : SysPath),
        (getVSCodeSysroot checksums envSysrootDir tmpdir oracle fs arch).2.2 = Except.ok p →
        getVSCodeSysroot checksums envSysrootDir tmpdir oracle2
            (getVSCodeSysroot checksums envSysrootDir tmpdir oracle fs arch).1 arch =
          ((getVSCodeSysroot checksums envSysrootDir tmpdir oracle fs arch).1, [], Except.ok p)) ∧
    (∀ (electronVersion : String) (tmpdir : SysPath) (manifest : String → SysrootEntry)
        (dlOracle dlOracle2 : Nat → DownloadOutcome) (sha1 sha2 : String → String)
        (tarStatus tarStatus2 : Nat) (fs : SysFS) (arch : String) (p : SysPath),
        (getChromiumSysroot electronVersion tmpdir 0 manifest dlOracle sha1 tarStatus fs arch).2.2 =
            Except.ok p →
        getChromiumSysroot electronVersion tmpdir 0 manifest dlOracle2 sha2 tarStatus2
            (getChromiumSysroot electronVersion tmpdir 0 manifest dlOracle sha1 tarStatus fs arch).1 arch =
          ((getChromiumSysroot electronVersion tmpdir 0 manifest dlOracle sha1 tarStatus fs arch).1,
           [SysEffect.curlManifest (chromiumManifestUrl electronVersion)], Except.ok p)) := by
  refine ⟨?_, ?_, ?_, ?_⟩
  · intro checksums ed tmp oracle fs arch c hc hs
    exact getVSCodeSysroot_cache_hit hc hs
  · intro ev tmp man dlo sha tarSt fs arch hs
    exact getChromiumSysroot_cache_hit hs
  · intro checksums ed tmp o1 o2 fs arch p h
    obtain ⟨hp, ⟨c, hc⟩, hstamp⟩ := getVSCodeSysroot_ok_state h
    subst hp
    exact getVSCodeSysroot_cache_hit hc hstamp
  · intro ev tmp man dlo1 dlo2 sha1 sha2 t1 t2 fs arch p h
    obtain ⟨hp, hstamp⟩ := getChromiumSysroot_ok_state h
    subst hp
    exact getChromiumSysroot_cache_hit hstamp

/-- C4 counterexample: the claim as stated is false on the code in two ways.
With a matching Variant B marker, the call still performs a network access
(the `curl` download of the manifest, needed to construct the expected URL in
the first place). With a matching Variant A marker but a checksum table with
no entry, the call does not return the path at all but rejects with a
missing-checksum error, the lookup being performed before the marker check. -/
theorem claim_C4_cex :
    ((getChromiumSysroot "29.4.0" ["tmp"] 0 exManifest exDlFail (fun _ => "") 0 exStampFsB "amd64").2.2 =
        Except.ok ["tmp", "debian_bullseye_amd64-sysroot"] ∧
      fsGet exStampFsB (stampFile (chromiumSysrootDirOf ["tmp"] exManifest "amd64")) =
        some (chromiumUrlOf (exManifest (chromiumArchKey "amd64"))) ∧
      ((getChromiumSysroot "29.4.0" ["tmp"] 0 exManifest exDlFail (fun _ => "") 0 exStampFsB "amd64").2.1).any
          sysEffectIsNetwork = true) ∧
    (fsGet exStampFsA (stampFile (vscodeSysrootDir none ["tmp"] DebianArch.amd64)) =
        some (vscodeArchiveName DebianArch.amd64) ∧
      getVSCodeSysroot "" none ["tmp"] exOracleOk exStampFsA DebianArch.amd64 =
        (exStampFsA, [], Except.error (SysError.missingChecksum "x86_64-linux-gnu.tar.gz"))) :=
  ⟨⟨rfl, rfl, by decide⟩, ⟨rfl, rfl⟩⟩

/-- C4 witness: both cache-hit equations at concrete matching markers. -/
theorem claim_C4_w :
    getVSCodeSysroot exChecksums none ["tmp"] exOracleOk exStampFsA DebianArch.amd64 =
      (exStampFsA, [], Except.ok (vscodeResultPath none ["tmp"] DebianArch.amd64)) ∧
    getChromiumSysroot "29.4.0" ["tmp"] 0 exManifest exDlFail (fun _ => "") 0 exStampFsB "amd64" =
      (exStampFsB, [SysEffect.curlManifest (chromiumManifestUrl "29.4.0")],
       Except.ok (chromiumSysrootDirOf ["tmp"] exManifest "amd64")) :=
  ⟨(claim_C4).1 exChecksums none ["tmp"] exOracleOk exStampFsA DebianArch.amd64 "abc" rfl rfl,
   (claim_C4).2.1 "29.4.0" ["tmp"] exManifest exDlFail (fun _ => "") 0 exStampFsB "amd64" rfl⟩

/-- C5: in every execution path of both provisioners, the marker file is
written only in runs that return success (a `writeFile` event in the trace
implies a successful result, and the write follows download, verification and
extraction by the shape of the traces); a failed acquisition — fetch-retry
exhaustion for Variant A; download exhaustion, hash mismatch or extraction
failure for Variant B — leaves no marker file in the final filesystem, so a
subsequent run misses the cache and re-attempts the acquisition (its trace
contains the fetch, respectively a tarball download attempt). -/
theorem claim_C5 :
    (∀ (checksums : String) (envSysrootDir : Option SysPath) (tmpdir : SysPath)
        (oracle : Nat → AttemptOutcome) (fs : SysFS) (arch : DebianArch),
        (∀ p c, SysEffect.writeFile p c ∈
              (getVSCodeSysroot checksums envSysrootDir tmpdir oracle fs arch).2.1 →
            ∃ q, (getVSCodeSysroot checksums envSysrootDir tmpdir oracle fs arch).2.2 = Except.ok q) ∧
        (∀ e, (getVSCodeSysroot checksums envSysrootDir tmpdir oracle fs arch).2.2 =
              Except.error (SysError.fetchFailed e) →
          fsGet (getVSCodeSysroot checksums envSysrootDir tmpdir oracle fs arch).1
              (stampFile (vscodeSysrootDir envSysrootDir tmpdir arch)) = none ∧
          ∀ oracle2, SysEffect.fetchRelease ∈
            (getVSCodeSysroot checksums envSysrootDir tmpdir oracle2
              (getVSCodeSysroot checksums envSysrootDir tmpdir oracle fs arch).1 arch).2.1)) ∧
    (∀ (electronVersion : String) (tmpdir : SysPath) (manifest : String → SysrootEntry)
        (dlOracle : Nat → DownloadOutcome) (sha1 : String → String) (tarStatus : Nat)
        (fs : SysFS) (arch : String),
        (manifest (chromiumArchKey arch)).tarball ≠ ".stamp" →
        (∀ p c, SysEffect.writeFile p c ∈
              (getChromiumSysroot electronVersion tmpdir 0 manifest dlOracle sha1 tarStatus fs arch).2.1 →
            ∃ q, (getChromiumSysroot electronVersion tmpdir 0 manifest dlOracle sha1 tarStatus fs arch).2.2 =
              Except.ok q) ∧
        (∀ err, (getChromiumSysroot electronVersion tmpdir 0 manifest dlOracle sha1 tarStatus fs arch).2.2 =
              Except.error err →
          fsGet (getChromiumSysroot electronVersion tmpdir 0 manifest dlOracle sha1 tarStatus fs arch).1
              (stampFile (chromiumSysrootDirOf tmpdir manifest arch)) = none ∧
          ∀ dlOracle2 sha2 tarStatus2,
            SysEffect.httpGet (chromiumUrlOf (manifest (chromiumArchKey arch))) ∈
              (getChromiumSysroot electronVersion tmpdir 0 manifest dlOracle2 sha2 tarStatus2
                (getChromiumSysroot electronVersion tmpdir 0 manifest dlOracle sha1 tarStatus fs arch).1
                arch).2.1)) := by
  constructor
  · intro checksums ed tmp oracle fs arch
    constructor
    · intro p c hmem
      cases hc : getVSCodeSysrootChecksum checksums (vscodeArchiveName arch) with
      | none =>
        rw [getVSCodeSysroot_no_checksum hc] at hmem
        simp at hmem
      | some c0 =>
        by_cases hs : fsGet fs (stampFile (vscodeSysrootDir ed tmp arch)) = some (vscodeArchiveName arch)
        · rw [getVSCodeSysroot_cache_hit hc hs] at hmem
          simp at hmem
        · cases hf : (fetchUrl oracle 0 10 1000).2.2 with
          | ok u =>
            cases u
            rw [getVSCodeSysroot_acquire_ok hc hs hf]
            exact ⟨_, rfl⟩
          | error e =>
            rw [getVSCodeSysroot_acquire_err hc hs hf] at hmem
            simp at hmem
    · intro e herr
      cases hc : getVSCodeSysrootChecksum checksums (vscodeArchiveName arch) with
      | none =>
        rw [getVSCodeSysroot_no_checksum hc] at herr
        simp at herr
      | some c0 =>
        by_cases hs : fsGet fs (stampFile (vscodeSysrootDir ed tmp arch)) = some (vscodeArchiveName arch)
        · rw [getVSCodeSysroot_cache_hit hc hs] at herr
          simp at herr
        · cases hf : (fetchUrl oracle 0 10 1000).2.2 with
          | ok u =>
            cases u
            rw [getVSCodeSysroot_acquire_ok hc hs hf] at herr
            simp at herr
          | error e2 =>
            rw [getVSCodeSysroot_acquire_err hc hs hf]
            have hnone : fsGet (fsRemoveTree fs (vscodeSysrootDir ed tmp arch))
                (stampFile (vscodeSysrootDir ed tmp arch)) = none :=
              fsGet_fsRemoveTree_append fs _ [".stamp"]
            refine ⟨hnone, ?_⟩
            intro oracle2
            exact getVSCodeSysroot_miss_fetch hc (by simp [hnone])
  · intro ev tmp man dlo sha tarSt fs arch htb
    have hne : stampFile (chromiumSysrootDirOf tmp man arch) ≠
        chromiumSysrootDirOf tmp man arch ++ [(man (chromiumArchKey arch)).tarball] := by
      intro hcontra
      have : ".stamp" = (man (chromiumArchKey arch)).tarball := by
        simpa [stampFile] using hcontra
      exact htb this.symm
    have hnone : fsGet (fsRemoveTree fs (chromiumSysrootDirOf tmp man arch))
        (stampFile (chromiumSysrootDirOf tmp man arch)) = none :=
      fsGet_fsRemoveTree_append fs _ [".stamp"]
    constructor
    · intro p c hmem
      by_cases hs : fsGet fs (stampFile (chromiumSysrootDirOf tmp man arch)) =
          some (chromiumUrlOf (man (chromiumArchKey arch)))
      · rw [getChromiumSysroot_cache_hit hs] at hmem
        simp at hmem
      · cases hdl : (downloadLoop dlo 0 3).2 with
        | none =>
          rw [getChromiumSysroot_dl_fail hs hdl] at hmem
          simp [List.mem_append, List.mem_replicate] at hmem
        | some contents =>
          by_cases hsha : sha contents = (man (chromiumArchKey arch)).sha1sum
          · by_cases htar : tarSt = 0
            · subst htar
              rw [getChromiumSysroot_acquire_ok hs hdl hsha]
              exact ⟨_, rfl⟩
            · rw [getChromiumSysroot_tar_fail hs hdl hsha htar] at hmem
              simp [List.mem_append, List.mem_replicate] at hmem
          · rw [getChromiumSysroot_sha_fail hs hdl hsha] at hmem
            simp [List.mem_append, List.mem_replicate] at hmem
    · intro err herr
      by_cases hs : fsGet fs (stampFile (chromiumSysrootDirOf tmp man arch)) =
          some (chromiumUrlOf (man (chromiumArchKey arch)))
      · rw [getChromiumSysroot_cache_hit hs] at herr
        simp at herr
      · cases hdl : (downloadLoop dlo 0 3).2 with
        | none =>
          rw [getChromiumSysroot_dl_fail hs hdl]
          have hfin : fsGet
              (fsRemoveFile
                (fsWrite (fsRemoveTree fs (chromiumSysrootDirOf tmp man arch))
                  (chromiumSysrootDirOf tmp man arch ++ [(man (chromiumArchKey arch)).tarball]) "")
                (chromiumSysrootDirOf tmp man arch ++ [(man (chromiumArchKey arch)).tarball]))
              (stampFile (chromiumSysrootDirOf tmp man arch)) = none := by
            rw [fsGet_fsRemoveFile_ne _ hne, fsGet_fsWrite_ne _ _ hne]
            exact hnone
          refine ⟨hfin, ?_⟩
          intro dlo2 sha2 t2
          exact getChromiumSysroot_miss_httpGet (by simp [hfin])
        | some contents =>
          by_cases hsha : sha contents = (man (chromiumArchKey arch)).sha1sum
          · by_cases htar : tarSt = 0
            · subst htar
              rw [getChromiumSysroot_acquire_ok hs hdl hsha] at herr
              simp at herr
            · rw [getChromiumSysroot_tar_fail hs hdl hsha htar]
              have hfin : fsGet
                  (fsWrite (fsRemoveTree fs (chromiumSysrootDirOf tmp man arch))
                    (chromiumSysrootDirOf tmp man arch ++ [(man (chromiumArchKey arch)).tarball]) contents)
                  (stampFile (chromiumSysrootDirOf tmp man arch)) = none := by
                rw [fsGet_fsWrite_ne _ _ hne]
                exact hnone
              refine ⟨hfin, ?_⟩
              intro dlo2 sha2 t2
              exact getChromiumSysroot_miss_httpGet (by simp [hfin])
          · rw [getChromiumSysroot_sha_fail hs hdl hsha]
            have hfin : fsGet
                (fsWrite (fsRemoveTree fs (chromiumSysrootDirOf tmp man arch))
                  (chromiumSysrootDirOf tmp man arch ++ [(man (chromiumArchKey arch)).tarball]) contents)
                (stampFile (chromiumSysrootDirOf tmp man arch)) = none := by
              rw [fsGet_fsWrite_ne _ _ hne]
              exact hnone
            refine ⟨hfin, ?_⟩
            intro dlo2 sha2 t2
            exact getChromiumSysroot_miss_httpGet (by simp [hfin])

/-- C5 witness: a Variant A run whose fetch attempts are exhausted and a
Variant B run whose three download attempts all fail both leave no marker. -/
theorem claim_C5_w :
    fsGet (getVSCodeSysroot exChecksums none ["tmp"] exOracleFail [] DebianArch.amd64).1
        (stampFile (vscodeSysrootDir none ["tmp"] DebianArch.amd64)) = none ∧
    fsGet (getChromiumSysroot "29.4.0" ["tmp"] 0 exManifest exDlFail exSha1 0 [] "amd64").1
        (stampFile (chromiumSysrootDirOf ["tmp"] exManifest "amd64")) = none :=
  ⟨(((claim_C5).1 exChecksums none ["tmp"] exOracleFail [] DebianArch.amd64).2
      (FetchFailure.assetMissing "x86_64-linux-gnu.tar.gz") rfl).1,
   (((claim_C5).2 "29.4.0" ["tmp"] exManifest exDlFail exSha1 0 [] "amd64" (by decide)).2
      (SysError.downloadFailed (chromiumUrlOf (exManifest (chromiumArchKey "amd64")))) rfl).1⟩
